import Mathlib

/-!
Verification of the pool-resize reconciliation loop
(`src/api-service/__app__/pool_resize/__init__.py`).

The Python module is shallowly embedded below.  Python integers are
modelled by `Int` (arbitrary precision, possibly negative).  Python
truthiness on optional fields (`if pool.autoscale.max_size:` and
`if not autoscale_config.region:`) is modelled explicitly: `None` and
`0` are falsy for an optional int, `None` and the empty string are
falsy for an optional string.  Mutation is modelled by returning the
updated record list together with an explicit trace of the externally
visible commands (scaleset saves, scaleset creations, per-node
shutdown commands), and a raised exception is modelled by an error
component carrying the events issued before the raise.
-/

namespace OneFuzz

/-- Lifecycle states of a scaleset, from `onefuzztypes.enums.ScalesetState`. -/
inductive ScalesetState where
  | init
  | setup
  | resize
  | running
  | shutdown
  | halt
  | creation_failed
  deriving DecidableEq, Repr

/-- Modelled from the spec: `ScalesetState.modifying()` (defined in
`onefuzztypes`, not under `src/`) is the set of mid-transition states,
"a scaleset currently resizing or shutting down". -/
def ScalesetState.modifying : List ScalesetState :=
  [ScalesetState.resize, ScalesetState.shutdown]

/-- Per-pool autoscale policy, from `onefuzztypes.models.AutoScaleConfig`
as described by the spec: `{min_size: int, max_size: int?,
scaleset_size: int, vm_sku: string, image: string, region: string?,
spot_instances: bool}`. -/
structure AutoScaleConfig where
  min_size : Int
  max_size : Option Int
  scaleset_size : Int
  vm_sku : String
  image : String
  region : Option String
  spot_instances : Bool
  deriving DecidableEq, Repr

/-- Python truthiness of an optional int: `None` and `0` are falsy. -/
def intOptTruthy : Option Int → Bool
  | none => false
  | some n => n != 0

/-- Python truthiness of an optional string: `None` and `""` are falsy. -/
def strOptTruthy : Option String → Bool
  | none => false
  | some s => s != ""

/-- A worker pool.  Only the fields this module reads are modelled;
`pool.autoscale` is `None` or an `AutoScaleConfig`. -/
structure Pool where
  name : String
  autoscale : Option AutoScaleConfig
  deriving DecidableEq, Repr

/-- A scaleset record, with the fields the module reads and writes. -/
structure Scaleset where
  scaleset_id : Nat
  pool_name : String
  state : ScalesetState
  size : Int
  vm_sku : String
  image : String
  region : String
  spot_instances : Bool
  tags : List (String × String)
  deriving DecidableEq, Repr

/-- A node; the module only learns nodes from the free-state query and
issues per-node shutdown commands. -/
structure Node where
  machine_id : Nat
  scaleset_id : Nat
  deriving DecidableEq, Repr

/-- The typed pool reference of a task (`onefuzztypes.models.TaskPool`),
carrying the requested node count. -/
structure TaskPool where
  count : Int
  pool_name : String
  deriving DecidableEq, Repr

/-- A task, as seen by `get_vm_count`.  `get_pool_result` is the result
of the external lookup `task.get_pool()` (`None` when the reference does
not resolve to a real pool); `config_pool` is `task.config.pool` when it
is a well-typed `TaskPool` and `None` when missing or mistyped. -/
structure Task where
  get_pool_result : Option Pool
  config_pool : Option TaskPool
  deriving DecidableEq, Repr

/-- Externally visible mutation commands issued by the module. -/
inductive Event where
  | saveScaleset : Scaleset → Event
  | createScaleset : Scaleset → Event
  | shutdownNode : Nat → Event
  deriving DecidableEq, Repr

/-- Exceptions `scale_up` can raise: `ZeroDivisionError` from
`math.ceil(nodes_needed / 0)` and the explicit
`Exception("Region is missing")`. -/
inductive ScaleUpError where
  | divByZero
  | missingRegion
  deriving DecidableEq, Repr

/-- Sum of the `size` fields of a list of scalesets. -/
def sumSizes (l : List Scaleset) : Int :=
  (l.map Scaleset.size).sum

/-- Number of per-node shutdown commands in a trace. -/
def shutdownCount (l : List Event) : Nat :=
  l.countP fun e =>
    match e with
    | Event.shutdownNode _ => true
    | _ => false

/-- Number of scaleset-creation commands in a trace. -/
def createCount (l : List Event) : Nat :=
  l.countP fun e =>
    match e with
    | Event.createScaleset _ => true
    | _ => false

/-- Exact-rational model of Python `math.ceil(a / b)` for `b ≠ 0`
(float division followed by `math.ceil`): the ceiling of `a / b`,
written as the negated floor division of `-a` by `b`. -/
def pyCeilDiv (a b : Int) : Int :=
  -(Int.fdiv (-a) b)

/-- Result of the first (fill) loop of `scale_up`: the scaleset list
after in-place mutation, the commands issued, the remaining
`nodes_needed`, and whether the loop hit `return` (`nodes_needed == 0`
after a mutation). -/
structure FillResult where
  updated : List Scaleset
  events : List Event
  nodes_needed : Int
  early : Bool
  deriving Repr

/-- The first loop of `scale_up`: for each scaleset in the running
state, with `max_size = min(scaleset.max_size(), config.scaleset_size)`,
grow it toward `max_size` while demand remains; mark it `resize` and
save; return as soon as `nodes_needed` reaches `0`.  `smax` models the
per-image maximum size `Scaleset.max_size()` derives from the image. -/
def scale_up_fill (smax : String → Int) (conf : AutoScaleConfig) :
    List Scaleset → Int → FillResult
  | [], n => ⟨[], [], n, false⟩
  | s :: rest, n =>
    if s.state = ScalesetState.running then
      let max_size := min (smax s.image) conf.scaleset_size
      if s.size < max_size then
        let current_size := s.size
        let pair :=
          if n ≤ max_size - current_size then
            ({ s with size := current_size + n, state := ScalesetState.resize }, (0 : Int))
          else
            ({ s with size := max_size, state := ScalesetState.resize },
             n - (max_size - current_size))
        if pair.2 = 0 then
          ⟨pair.1 :: rest, [Event.saveScaleset pair.1], 0, true⟩
        else
          let r := scale_up_fill smax conf rest pair.2
          ⟨pair.1 :: r.updated, Event.saveScaleset pair.1 :: r.events,
           r.nodes_needed, r.early⟩
      else
        let r := scale_up_fill smax conf rest n
        ⟨s :: r.updated, r.events, r.nodes_needed, r.early⟩
    else
      let r := scale_up_fill smax conf rest n
      ⟨s :: r.updated, r.events, r.nodes_needed, r.early⟩

/-- Modelled from the spec: `Scaleset.create(...)` (defined in
`onefuzzlib.pools`, not under `src/`) constructs a new scaleset record
in its initial lifecycle state with the given fields and
`tags = {"pool": pool_name}`; the platform-generated identity is
modelled by the creation index. -/
def Scaleset.create (pool_name : String) (conf : AutoScaleConfig)
    (idx : Nat) (size : Int) : Scaleset :=
  { scaleset_id := idx
    pool_name := pool_name
    state := ScalesetState.init
    size := size
    vm_sku := conf.vm_sku
    image := conf.image
    region := conf.region.getD ""
    spot_instances := conf.spot_instances
    tags := [("pool", pool_name)] }

/-- The creation loop of `scale_up`, run `k` times (`k` is
`range(math.ceil(remaining / cap))` computed by the caller): each
iteration takes `min(scaleset_max_size(image), scaleset_size,
nodes_needed)` nodes, raises when the config has no region, otherwise
creates and saves a scaleset of that size. -/
def scale_up_create (smax : String → Int) (conf : AutoScaleConfig)
    (pool_name : String) :
    Nat → Int → Nat → List Scaleset × List Event × Option ScaleUpError
  | 0, _, _ => ([], [], none)
  | k + 1, n, idx =>
    let max_nodes_scaleset := min (min (smax conf.image) conf.scaleset_size) n
    if strOptTruthy conf.region then
      let s := Scaleset.create pool_name conf idx max_nodes_scaleset
      let r := scale_up_create smax conf pool_name k (n - max_nodes_scaleset) (idx + 1)
      (s :: r.1, Event.createScaleset s :: Event.saveScaleset s :: r.2.1, r.2.2)
    else
      ([], [], some ScaleUpError.missingRegion)

/-- Outcome of `scale_up`: the input scalesets after in-place mutation,
the created scalesets, the command trace, and the exception raised (if
any) after the recorded commands. -/
structure ScaleUpResult where
  updated : List Scaleset
  created : List Scaleset
  events : List Event
  error : Option ScaleUpError
  deriving Repr

/-- `scale_up(pool, scalesets, nodes_needed)`: no-op when the pool has
no autoscale config; otherwise fill existing running scalesets first
and, unless the fill loop returned early, create
`math.ceil(remaining / min(scaleset_max_size(image), scaleset_size))`
new scalesets (a cap of `0` raises `ZeroDivisionError` at that
division). -/
def scale_up (smax : String → Int) (pool : Pool)
    (scalesets : List Scaleset) (nodes_needed : Int) : ScaleUpResult :=
  match pool.autoscale with
  | none => ⟨scalesets, [], [], none⟩
  | some conf =>
    let f := scale_up_fill smax conf scalesets nodes_needed
    if f.early then
      ⟨f.updated, [], f.events, none⟩
    else
      let cap := min (smax conf.image) conf.scaleset_size
      if cap = 0 then
        ⟨f.updated, [], f.events, some ScaleUpError.divByZero⟩
      else
        let k := (pyCeilDiv f.nodes_needed cap).toNat
        let c := scale_up_create smax conf pool.name k f.nodes_needed 0
        ⟨f.updated, c.1, f.events ++ c.2.1, c.2.2⟩

/-- One iteration of the `scale_down` loop on a single scaleset:
query its free nodes; when some exist and removal demand remains,
either retire the whole scaleset (state `shutdown`, save, shut every
free node down) when `min(len(nodes), nodes_to_remove) >= size` and
`len(nodes) == size`, or shrink it by `min(len(nodes),
nodes_to_remove)` and mark it `resize`. -/
def scale_down_step (free : Nat → List Node) (s : Scaleset) (ntr : Int) :
    Scaleset × List Event × Int :=
  let nodes := free s.scaleset_id
  if nodes ≠ [] ∧ 0 < ntr then
    let max_nodes_remove := min (nodes.length : Int) ntr
    if max_nodes_remove ≥ s.size ∧ (nodes.length : Int) = s.size then
      let s1 := { s with state := ScalesetState.shutdown }
      (s1, Event.saveScaleset s1 ::
             nodes.map (fun nd => Event.shutdownNode nd.machine_id),
       ntr - s.size)
    else
      let s1 := { s with size := s.size - max_nodes_remove,
                         state := ScalesetState.resize }
      (s1, [Event.saveScaleset s1], ntr - max_nodes_remove)
  else
    (s, [], ntr)

/-- `scale_down(scalesets, nodes_to_remove)`: iterate the step over the
scalesets in enumeration order, threading the remaining removal count
(the loop never breaks early; a zero or negative remainder makes every
later step a no-op). -/
def scale_down (free : Nat → List Node) :
    List Scaleset → Int → List Scaleset × List Event
  | [], _ => ([], [])
  | s :: rest, ntr =>
    let step := scale_down_step free s ntr
    let r := scale_down free rest step.2.2
    (step.1 :: r.1, step.2.1 ++ r.2)

/-- Ghost measure: the per-scaleset number of nodes removed by
`scale_down` (size reduction plus per-node shutdown commands), in
enumeration order. -/
def scale_down_removals (free : Nat → List Node) :
    List Scaleset → Int → List Int
  | [], _ => []
  | s :: rest, ntr =>
    let step := scale_down_step free s ntr
    ((s.size - step.1.size) + (shutdownCount step.2.1 : Int)) ::
      scale_down_removals free rest step.2.2

/-- Ghost measure: total free-node count of the scalesets actually
reclaimed from (those with a nonzero removal). -/
def reclaimedFreeTotal (free : Nat → List Node)
    (ss : List Scaleset) (rem : List Int) : Int :=
  (((ss.zip rem).filter (fun p => p.2 != 0)).map
      (fun p => ((free p.1.scaleset_id).length : Int))).sum

/-- `get_vm_count(tasks)`: sum the requested node count over tasks whose
pool reference resolves to a pool and whose `task.config.pool` is a
well-typed `TaskPool`; other tasks are skipped. -/
def get_vm_count (tasks : List Task) : Int :=
  tasks.foldl
    (fun count task =>
      match task.get_pool_result, task.config_pool with
      | some _, some tp => count + tp.count
      | _, _ => count)
    0

/-- Ghost measure: the demand contribution of a single task (zero for a
missing or mistyped pool reference). -/
def taskDemand (task : Task) : Int :=
  match task.get_pool_result, task.config_pool with
  | some _, some tp => tp.count
  | _, _ => 0

/-- The demand computation of `main` for one pool:
`nodes_needed = max(get_vm_count(tasks), min_size)` then, when
`max_size` is truthy (set and nonzero), `min(nodes_needed, max_size)`. -/
def demand (conf : AutoScaleConfig) (tasks : List Task) : Int :=
  let n0 := max (get_vm_count tasks) conf.min_size
  match conf.max_size with
  | some m => if m != 0 then min n0 m else n0
  | none => n0

/-- The scaleset scan of `main`: walk the pool's scalesets in order;
on the first one whose state is in `ScalesetState.modifying()` set the
busy flag and break, otherwise subtract its size from `nodes_needed`. -/
def busy_scan : List Scaleset → Int → Bool × Int
  | [], n => (false, n)
  | s :: rest, n =>
    if s.state ∈ ScalesetState.modifying then (true, n)
    else busy_scan rest (n - s.size)

/-- The external collaborators of one tick: task lookup by pool name,
scaleset lookup by pool name, free-node lookup by scaleset id, and the
per-image maximum scaleset size. -/
structure Env where
  tasks_by_pool : String → List Task
  scalesets_by_pool : String → List Scaleset
  node_search_free : Nat → List Node
  scaleset_max_size : String → Int

/-- Outcome of processing one pool in a tick: the pool's scalesets
afterwards (mutated and created), the command trace, the exception (if
any), and the final value of the `nodes_needed` variable (`none` when
the pool was skipped before demand was computed). -/
structure TickPoolResult where
  scalesets : List Scaleset
  events : List Event
  error : Option ScaleUpError
  nodes_needed : Option Int
  deriving Repr

/-- The body of `main`'s per-pool loop: skip pools without autoscale;
compute clamped demand; scan scalesets for mid-transition states while
subtracting sizes; skip the pool when busy; otherwise scale up on a
positive delta and scale down on a negative one. -/
def tick_pool (env : Env) (pool : Pool) : TickPoolResult :=
  match pool.autoscale with
  | none => ⟨env.scalesets_by_pool pool.name, [], none, none⟩
  | some conf =>
    let nodes_needed := demand conf (env.tasks_by_pool pool.name)
    let scalesets := env.scalesets_by_pool pool.name
    let scan := busy_scan scalesets nodes_needed
    if scan.1 then
      ⟨scalesets, [], none, some scan.2⟩
    else if 0 < scan.2 then
      let r := scale_up env.scaleset_max_size pool scalesets scan.2
      ⟨r.updated ++ r.created, r.events, r.error, some scan.2⟩
    else if scan.2 < 0 then
      let r := scale_down env.node_search_free scalesets |scan.2|
      ⟨r.1, r.2, none, some scan.2⟩
    else
      ⟨scalesets, [], none, some scan.2⟩

/-- The persisted effect of one pool's processing on the external
store: the pool's scaleset list is replaced by the post-tick one. -/
def envAfter (env : Env) (pool : Pool) (r : TickPoolResult) : Env :=
  { env with
    scalesets_by_pool := fun nm =>
      if nm = pool.name then r.scalesets else env.scalesets_by_pool nm }

/-- `main(mytimer)` over the pools returned by the available-state
query: process each pool in order, persisting its mutations; an
exception aborts the remainder of the tick (mutations already issued
are kept). -/
def main_tick (env : Env) : List Pool → Env × List Event × Option ScaleUpError
  | [] => (env, [], none)
  | p :: ps =>
    let r := tick_pool env p
    match r.error with
    | some e => (envAfter env p r, r.events, some e)
    | none =>
      let rest := main_tick (envAfter env p r) ps
      (rest.1, r.events ++ rest.2.1, rest.2.2)

/-! ### Concrete sample inputs (used to instantiate theorems) -/

/-- A per-image maximum-size table: every image caps at 1000 nodes. -/
def wSmax : String → Int := fun _ => 1000

def wConf : AutoScaleConfig :=
  { min_size := 0
    max_size := none
    scaleset_size := 5
    vm_sku := "sku"
    image := "img"
    region := some "eastus"
    spot_instances := false }

def wPool : Pool := { name := "pool1", autoscale := some wConf }

def wScaleset (id : Nat) (st : ScalesetState) (sz : Int) : Scaleset :=
  { scaleset_id := id
    pool_name := "pool1"
    state := st
    size := sz
    vm_sku := "sku"
    image := "img"
    region := "eastus"
    spot_instances := false
    tags := [("pool", "pool1")] }

def wNode (mid sid : Nat) : Node := { machine_id := mid, scaleset_id := sid }

/-- Free-node query: scaleset 7 has two free nodes, all others none. -/
def wFreeTwo : Nat → List Node := fun sid =>
  if sid = 7 then [wNode 1 7, wNode 2 7] else []

def wEnvBusy : Env :=
  { tasks_by_pool := fun _ => []
    scalesets_by_pool := fun _ => [wScaleset 1 ScalesetState.resize 5]
    node_search_free := fun _ => []
    scaleset_max_size := wSmax }

def wEnvCalm : Env :=
  { tasks_by_pool := fun _ => []
    scalesets_by_pool := fun _ => [wScaleset 1 ScalesetState.running 3]
    node_search_free := fun _ => []
    scaleset_max_size := wSmax }

def wTaskOk : Task :=
  { get_pool_result := some wPool, config_pool := some { count := 2, pool_name := "pool1" } }

def wTaskNoPool : Task :=
  { get_pool_result := none, config_pool := some { count := 7, pool_name := "pool1" } }

def wConfCapped : AutoScaleConfig :=
  { wConf with min_size := 1, max_size := some 3 }

/-- A config whose truthiness-based `max_size` guard ignores `some 0`. -/
def cexConfMaxZero : AutoScaleConfig :=
  { wConf with min_size := 2, max_size := some 0 }

/-- A config with a negative target scaleset size and no region. -/
def cexConfNegTarget : AutoScaleConfig :=
  { wConf with scaleset_size := -1, region := none }

def cexPoolNegTarget : Pool := { name := "pool1", autoscale := some cexConfNegTarget }

def cexConfDeficit : AutoScaleConfig := { wConf with min_size := 1 }

def cexPoolDeficit : Pool := { name := "pool1", autoscale := some cexConfDeficit }

/-- One running scaleset of size 3, no free nodes, demand 1: a deficit
of 2 that no tick can reclaim. -/
def cexEnvDeficit : Env :=
  { tasks_by_pool := fun _ => []
    scalesets_by_pool := fun _ => [wScaleset 1 ScalesetState.running 3]
    node_search_free := fun _ => []
    scaleset_max_size := wSmax }

def wConfNoRegion : AutoScaleConfig := { wConf with region := none }

def wPoolNoRegion : Pool := { name := "pool1", autoscale := some wConfNoRegion }

def wConfZeroCap : AutoScaleConfig := { wConf with scaleset_size := 0 }

def wPoolZeroCap : Pool := { name := "pool1", autoscale := some wConfZeroCap }

def cexConfHighMin : AutoScaleConfig := { wConf with min_size := 10 }

def cexPoolHighMin : Pool := { name := "pool1", autoscale := some cexConfHighMin }

/-- A mid-transition scaleset of size 5 ahead of a running one of
size 3. -/
def cexEnvModifying : Env :=
  { tasks_by_pool := fun _ => []
    scalesets_by_pool := fun _ =>
      [wScaleset 1 ScalesetState.resize 5, wScaleset 2 ScalesetState.running 3]
    node_search_free := fun _ => []
    scaleset_max_size := wSmax }

/-! ### Arithmetic facts about the ceiling division used by `scale_up` -/

theorem fdiv_nonneg_of_nonpos_of_neg :
    ∀ {a b : Int}, a ≤ 0 → b < 0 → 0 ≤ Int.fdiv a b
  | Int.ofNat 0, b, _, _ => by simp
  | Int.ofNat (m + 1), _, ha, _ => by
      rw [Int.ofNat_eq_natCast] at ha
      have hpos : (0 : Int) < ((m + 1 : Nat) : Int) := by exact_mod_cast Nat.succ_pos m
      exact absurd ha (not_le.mpr hpos)
  | Int.negSucc m, Int.ofNat n, _, hb =>
      absurd hb (not_lt.mpr (Int.ofNat_nonneg n))
  | Int.negSucc m, Int.negSucc n, _, _ => by
      show 0 ≤ Int.ofNat (Nat.succ m / Nat.succ n)
      exact Int.ofNat_nonneg _

/-- With a negative cap and positive remaining demand, the ceiling of
the quotient is nonpositive, so `range(...)` is empty. -/
theorem pyCeilDiv_nonpos {n c : Int} (hn : 0 < n) (hc : c < 0) :
    pyCeilDiv n c ≤ 0 := by
  have h := fdiv_nonneg_of_nonpos_of_neg (a := -n) (b := c) (by omega) hc
  unfold pyCeilDiv
  omega

/-- `pyCeilDiv n c` is the least integer `k` with `n ≤ k * c`
when `0 < c`. -/
theorem pyCeilDiv_bounds {n c : Int} (hc : 0 < c) :
    n ≤ pyCeilDiv n c * c ∧ (pyCeilDiv n c - 1) * c < n := by
  have hdef : pyCeilDiv n c = -((-n) / c) := by
    unfold pyCeilDiv
    rw [Int.fdiv_eq_ediv _ (le_of_lt hc)]
  have h1 : c * ((-n) / c) + (-n) % c = -n := Int.ediv_add_emod _ _
  have h2 : 0 ≤ (-n) % c := Int.emod_nonneg _ (by omega)
  have h3 : (-n) % c < c := Int.emod_lt_of_pos _ hc
  constructor
  · rw [hdef]; linarith [h1]
  · rw [hdef]; linarith [h1]

theorem pyCeilDiv_pos {n c : Int} (hn : 0 < n) (hc : 0 < c) :
    0 < pyCeilDiv n c := by
  rcases pyCeilDiv_bounds (n := n) hc with ⟨h1, _⟩
  by_contra h
  push_neg at h
  nlinarith

/-! ### The creation loop of `scale_up` -/

theorem scale_up_create_err_none (smax : String → Int)
    (conf : AutoScaleConfig) (pname : String)
    (h : strOptTruthy conf.region = true) :
    ∀ (k : Nat) (n : Int) (idx : Nat),
      (scale_up_create smax conf pname k n idx).2.2 = none := by
  intro k
  induction k with
  | zero => intro n idx; rfl
  | succ j ih => intro n idx; simp [scale_up_create, h, ih]

theorem scale_up_create_missing (smax : String → Int)
    (conf : AutoScaleConfig) (pname : String)
    (h : strOptTruthy conf.region = false) (k : Nat) (n : Int) (idx : Nat) :
    scale_up_create smax conf pname (k + 1) n idx =
      ([], [], some ScaleUpError.missingRegion) := by
  simp [scale_up_create, h]

theorem scale_up_create_head (smax : String → Int)
    (conf : AutoScaleConfig) (pname : String)
    (h : strOptTruthy conf.region = true) (k : Nat) (n : Int) (idx : Nat) :
    (scale_up_create smax conf pname (k + 1) n idx).1 ≠ [] := by
  simp [scale_up_create, h]

/-- Every scaleset produced by the creation loop starts in the `init`
state and respects the per-pool creation cap. -/
theorem scale_up_create_mem (smax : String → Int)
    (conf : AutoScaleConfig) (pname : String) :
    ∀ (k : Nat) (n : Int) (idx : Nat),
      ∀ c ∈ (scale_up_create smax conf pname k n idx).1,
        c.state = ScalesetState.init ∧
        c.size ≤ min (smax conf.image) conf.scaleset_size := by
  intro k
  induction k with
  | zero => intro n idx c hc; simp [scale_up_create] at hc
  | succ j ih =>
    intro n idx c hc
    by_cases h : strOptTruthy conf.region = true
    · simp only [scale_up_create, h, if_true, List.mem_cons] at hc
      rcases hc with hc | hc
      · subst hc
        exact ⟨rfl, min_le_left _ _⟩
      · exact ih _ _ c hc
    · have h' : strOptTruthy conf.region = false := by
        revert h; cases strOptTruthy conf.region <;> simp
      rw [scale_up_create_missing smax conf pname h'] at hc
      simp at hc

/-- Conservation in the creation loop: when the iteration count `k`
is the ceiling of `n / cap` (expressed by the two bounds), the sizes
of the created scalesets sum to exactly `n`. -/
theorem scale_up_create_sum (smax : String → Int)
    (conf : AutoScaleConfig) (pname : String)
    (hreg : strOptTruthy conf.region = true) :
    ∀ (k : Nat) (n : Int) (idx : Nat),
      0 < min (smax conf.image) conf.scaleset_size →
      0 < n →
      ((k : Int) - 1) * min (smax conf.image) conf.scaleset_size < n →
      n ≤ (k : Int) * min (smax conf.image) conf.scaleset_size →
      sumSizes (scale_up_create smax conf pname k n idx).1 = n := by
  intro k
  induction k with
  | zero =>
    intro n idx hcap hn h1 h2
    exfalso
    simp only [Nat.cast_zero, zero_mul] at h2
    omega
  | succ j ih =>
    intro n idx hcap hn h1 h2
    have hcast : ((j + 1 : Nat) : Int) = (j : Int) + 1 := by push_cast; ring
    rw [hcast] at h1 h2
    by_cases hj : j = 0
    · subst hj
      have hle : n ≤ min (smax conf.image) conf.scaleset_size := by
        simpa using h2
      have hmin : min (min (smax conf.image) conf.scaleset_size) n = n :=
        min_eq_right hle
      simp [scale_up_create, hreg, hmin, sumSizes, Scaleset.create]
    · have hj1 : 1 ≤ (j : Int) := by
        have : 1 ≤ j := Nat.one_le_iff_ne_zero.mpr hj
        exact_mod_cast this
      have hlt : min (smax conf.image) conf.scaleset_size < n := by
        nlinarith
      have hmin : min (min (smax conf.image) conf.scaleset_size) n =
          min (smax conf.image) conf.scaleset_size :=
        min_eq_left (le_of_lt hlt)
      have hrec := ih (n - min (smax conf.image) conf.scaleset_size) (idx + 1)
        hcap (by omega) (by linarith) (by linarith)
      simp only [scale_up_create, hreg, if_true, hmin]
      simp only [sumSizes, List.map_cons, List.sum_cons] at hrec ⊢
      rw [hrec]
      simp [Scaleset.create]

/-! ### The fill loop of `scale_up` -/

/-- Bookkeeping facts about the fill loop: conservation of demand, the
meaning of the early-return flag, the empty-trace case, the presence of
a `resize`-state scaleset whenever the trace is nonempty, positivity of
the remaining demand, and the absence of creation commands. -/
theorem scale_up_fill_spec (smax : String → Int) (conf : AutoScaleConfig) :
    ∀ (ss : List Scaleset) (n : Int),
      sumSizes (scale_up_fill smax conf ss n).updated =
        sumSizes ss + (n - (scale_up_fill smax conf ss n).nodes_needed) ∧
      ((scale_up_fill smax conf ss n).early = true →
        (scale_up_fill smax conf ss n).nodes_needed = 0 ∧
        (scale_up_fill smax conf ss n).events ≠ []) ∧
      ((scale_up_fill smax conf ss n).events = [] →
        (scale_up_fill smax conf ss n).updated = ss ∧
        (scale_up_fill smax conf ss n).nodes_needed = n ∧
        (scale_up_fill smax conf ss n).early = false) ∧
      ((scale_up_fill smax conf ss n).events ≠ [] →
        ∃ u ∈ (scale_up_fill smax conf ss n).updated,
          u.state = ScalesetState.resize) ∧
      (0 < n → (scale_up_fill smax conf ss n).early = false →
        0 < (scale_up_fill smax conf ss n).nodes_needed) ∧
      createCount (scale_up_fill smax conf ss n).events = 0 := by
  intro ss
  induction ss with
  | nil =>
    intro n
    refine ⟨by simp [scale_up_fill, sumSizes], ?_, ?_, ?_, ?_, ?_⟩
    · intro h; exact absurd h (by simp [scale_up_fill])
    · intro _; exact ⟨rfl, rfl, rfl⟩
    · intro h; exact absurd rfl h
    · intro hn _; exact hn
    · rfl
  | cons s rest ih =>
    intro n
    by_cases hrun : s.state = ScalesetState.running
    · by_cases hsz : s.size < min (smax s.image) conf.scaleset_size
      · by_cases hfit : n ≤ min (smax s.image) conf.scaleset_size - s.size
        · -- the scaleset absorbs all remaining demand; early return
          simp only [scale_up_fill, hrun, if_true, hsz, hfit, if_pos rfl]
          refine ⟨?_, ?_, ?_, ?_, ?_, ?_⟩
          · simp [sumSizes]; ring
          · intro _; exact ⟨by simp, by simp⟩
          · intro h; simp at h
          · intro _
            exact ⟨_, List.mem_cons_self _ _, rfl⟩
          · intro _ h; simp at h
          · simp [createCount]
        · -- the scaleset is filled to its cap; demand remains
          have hne : n - (min (smax s.image) conf.scaleset_size - s.size) ≠ 0 := by
            omega
          simp only [scale_up_fill, hrun, if_true, hsz, hfit, if_false, if_neg hne]
          rcases ih (n - (min (smax s.image) conf.scaleset_size - s.size)) with
            ⟨ih1, ih2, _, _, ih5, ih6⟩
          refine ⟨?_, ?_, ?_, ?_, ?_, ?_⟩
          · simp only [sumSizes, List.map_cons, List.sum_cons] at ih1 ⊢
            omega
          · intro h
            rcases ih2 h with ⟨h1, _⟩
            exact ⟨h1, by simp⟩
          · intro h; simp at h
          · intro _
            exact ⟨_, List.mem_cons_self _ _, rfl⟩
          · intro hn hearly
            exact ih5 (by omega) hearly
          · simpa [createCount] using ih6
      · -- running but already at or above the cap: `continue`
        simp only [scale_up_fill, hrun, if_true, hsz, if_false]
        rcases ih n with ⟨ih1, ih2, ih3, ih4, ih5, ih6⟩
        refine ⟨?_, ?_, ?_, ?_, ?_, ?_⟩
        · simp only [sumSizes, List.map_cons, List.sum_cons] at ih1 ⊢
          omega
        · exact ih2
        · intro h
          rcases ih3 h with ⟨h1, h2, h3⟩
          exact ⟨by rw [h1], h2, h3⟩
        · intro h
          rcases ih4 h with ⟨u, hu, hru⟩
          exact ⟨u, List.mem_cons_of_mem _ hu, hru⟩
        · exact ih5
        · exact ih6
    · -- not in the running state: skipped entirely
      simp only [scale_up_fill, hrun, if_false]
      rcases ih n with ⟨ih1, ih2, ih3, ih4, ih5, ih6⟩
      refine ⟨?_, ?_, ?_, ?_, ?_, ?_⟩
      · simp only [sumSizes, List.map_cons, List.sum_cons] at ih1 ⊢
        omega
      · exact ih2
      · intro h
        rcases ih3 h with ⟨h1, h2, h3⟩
        exact ⟨by rw [h1], h2, h3⟩
      · intro h
        rcases ih4 h with ⟨u, hu, hru⟩
        exact ⟨u, List.mem_cons_of_mem _ hu, hru⟩
      · exact ih5
      · exact ih6

/-- Cap respect in the fill loop: every scaleset is either untouched or
was strictly below `min(scaleset.max_size(), config.scaleset_size)` and
stays at or below it. -/
theorem scale_up_fill_cap (smax : String → Int) (conf : AutoScaleConfig) :
    ∀ (ss : List Scaleset) (n : Int),
      List.Forall₂
        (fun o u => u = o ∨
          (o.size < min (smax o.image) conf.scaleset_size ∧
           u.size ≤ min (smax o.image) conf.scaleset_size))
        ss (scale_up_fill smax conf ss n).updated := by
  intro ss
  induction ss with
  | nil => intro n; simp [scale_up_fill]
  | cons s rest ih =>
    intro n
    by_cases hrun : s.state = ScalesetState.running
    · by_cases hsz : s.size < min (smax s.image) conf.scaleset_size
      · by_cases hfit : n ≤ min (smax s.image) conf.scaleset_size - s.size
        · simp only [scale_up_fill, hrun, if_true, hsz, hfit, if_pos rfl]
          exact List.Forall₂.cons (Or.inr ⟨hsz, by simp; omega⟩)
            (List.forall₂_same.mpr fun x _ => Or.inl rfl)
        · have hne : n - (min (smax s.image) conf.scaleset_size - s.size) ≠ 0 := by
            omega
          simp only [scale_up_fill, hrun, if_true, hsz, hfit, if_false, if_neg hne]
          exact List.Forall₂.cons (Or.inr ⟨hsz, by simp⟩) (ih _)
      · simp only [scale_up_fill, hrun, if_true, hsz, if_false]
        exact List.Forall₂.cons (Or.inl rfl) (ih n)
    · simp only [scale_up_fill, hrun, if_false]
      exact List.Forall₂.cons (Or.inl rfl) (ih n)

/-! ### The scaleset scan of `main` -/

theorem busy_scan_true_iff : ∀ (ss : List Scaleset) (n : Int),
    (busy_scan ss n).1 = true ↔
      ∃ s ∈ ss, s.state ∈ ScalesetState.modifying := by
  intro ss
  induction ss with
  | nil => intro n; simp [busy_scan]
  | cons s rest ih =>
    intro n
    by_cases h : s.state ∈ ScalesetState.modifying
    · constructor
      · intro _
        exact ⟨s, List.mem_cons_self s rest, h⟩
      · intro _
        simp [busy_scan, h]
    · simp only [busy_scan, if_neg h]
      rw [ih (n - s.size)]
      constructor
      · rintro ⟨u, hu, hmu⟩
        exact ⟨u, List.mem_cons_of_mem _ hu, hmu⟩
      · rintro ⟨u, hu, hmu⟩
        rcases List.mem_cons.mp hu with rfl | hu
        · exact absurd hmu h
        · exact ⟨u, hu, hmu⟩

theorem busy_scan_not_busy : ∀ (ss : List Scaleset) (n : Int),
    (∀ s ∈ ss, s.state ∉ ScalesetState.modifying) →
    busy_scan ss n = (false, n - sumSizes ss) := by
  intro ss
  induction ss with
  | nil => intro n _; simp [busy_scan, sumSizes]
  | cons s rest ih =>
    intro n h
    have hs : s.state ∉ ScalesetState.modifying := h s (List.mem_cons_self s rest)
    simp only [busy_scan, if_neg hs]
    rw [ih _ (fun u hu => h u (List.mem_cons_of_mem _ hu))]
    simp only [sumSizes, List.map_cons, List.sum_cons, Prod.mk.injEq,
      true_and]
    omega

/-- The value the scan leaves in `nodes_needed`: the demand minus the
sizes of the scalesets strictly before the first mid-transition one. -/
theorem busy_scan_val : ∀ (ss : List Scaleset) (n : Int),
    (busy_scan ss n).2 =
      n - sumSizes (ss.takeWhile
        (fun s => !decide (s.state ∈ ScalesetState.modifying))) := by
  intro ss
  induction ss with
  | nil => intro n; simp [busy_scan, sumSizes]
  | cons s rest ih =>
    intro n
    by_cases h : s.state ∈ ScalesetState.modifying
    · simp [busy_scan, h, List.takeWhile_cons, sumSizes]
    · simp only [busy_scan, if_neg h]
      rw [ih (n - s.size)]
      simp [List.takeWhile_cons, h, sumSizes]
      omega

/-! ### The `scale_down` loop -/

theorem shutdownCount_map_shutdown (nodes : List Node) :
    shutdownCount (nodes.map fun nd => Event.shutdownNode nd.machine_id) =
      nodes.length := by
  induction nodes with
  | nil => rfl
  | cons nd rest ih => simp [shutdownCount, List.countP_cons] at ih ⊢

/-- Branch equation: no free nodes or no removal demand. -/
theorem scale_down_step_skip (free : Nat → List Node) (s : Scaleset)
    (ntr : Int) (hc : ¬(free s.scaleset_id ≠ [] ∧ 0 < ntr)) :
    scale_down_step free s ntr = (s, [], ntr) := by
  simp only [scale_down_step]
  rw [if_neg hc]

/-- Branch equation: full retirement of an entirely-free scaleset. -/
theorem scale_down_step_retire (free : Nat → List Node) (s : Scaleset)
    (ntr : Int) (hc : free s.scaleset_id ≠ [] ∧ 0 < ntr)
    (hr : min ((free s.scaleset_id).length : Int) ntr ≥ s.size ∧
      ((free s.scaleset_id).length : Int) = s.size) :
    scale_down_step free s ntr =
      ({ s with state := ScalesetState.shutdown },
       Event.saveScaleset { s with state := ScalesetState.shutdown } ::
         (free s.scaleset_id).map (fun nd => Event.shutdownNode nd.machine_id),
       ntr - s.size) := by
  simp only [scale_down_step]
  rw [if_pos hc, if_pos hr]

/-- Branch equation: shrink by `min(len(free), nodes_to_remove)`. -/
theorem scale_down_step_shrink (free : Nat → List Node) (s : Scaleset)
    (ntr : Int) (hc : free s.scaleset_id ≠ [] ∧ 0 < ntr)
    (hr : ¬(min ((free s.scaleset_id).length : Int) ntr ≥ s.size ∧
      ((free s.scaleset_id).length : Int) = s.size)) :
    scale_down_step free s ntr =
      ({ s with size := s.size - min ((free s.scaleset_id).length : Int) ntr,
                state := ScalesetState.resize },
       [Event.saveScaleset
         { s with size := s.size - min ((free s.scaleset_id).length : Int) ntr,
                  state := ScalesetState.resize }],
       ntr - min ((free s.scaleset_id).length : Int) ntr) := by
  simp only [scale_down_step]
  rw [if_pos hc, if_neg hr]

/-- A step that issues no command leaves the scaleset and the removal
budget unchanged. -/
theorem scale_down_step_evs_nil (free : Nat → List Node) (s : Scaleset)
    (ntr : Int) (h : (scale_down_step free s ntr).2.1 = []) :
    scale_down_step free s ntr = (s, [], ntr) := by
  by_cases hc : free s.scaleset_id ≠ [] ∧ 0 < ntr
  · by_cases hr : min ((free s.scaleset_id).length : Int) ntr ≥ s.size ∧
        ((free s.scaleset_id).length : Int) = s.size
    · rw [scale_down_step_retire free s ntr hc hr] at h
      simp at h
    · rw [scale_down_step_shrink free s ntr hc hr] at h
      simp at h
  · exact scale_down_step_skip free s ntr hc

/-- A step that issues a command leaves the scaleset in a
mid-transition state (`resize` or `shutdown`). -/
theorem scale_down_step_state (free : Nat → List Node) (s : Scaleset)
    (ntr : Int) (h : (scale_down_step free s ntr).2.1 ≠ []) :
    (scale_down_step free s ntr).1.state ∈ ScalesetState.modifying := by
  by_cases hc : free s.scaleset_id ≠ [] ∧ 0 < ntr
  · by_cases hr : min ((free s.scaleset_id).length : Int) ntr ≥ s.size ∧
        ((free s.scaleset_id).length : Int) = s.size
    · rw [scale_down_step_retire free s ntr hc hr]
      simp [ScalesetState.modifying]
    · rw [scale_down_step_shrink free s ntr hc hr]
      simp [ScalesetState.modifying]
  · rw [scale_down_step_skip free s ntr hc] at h
    exact absurd rfl h

/-- Per-step no-over-reclamation: the nodes removed from a scaleset
(size reduction plus shutdown commands) are nonnegative and at most its
free-node count. -/
theorem scale_down_step_removal (free : Nat → List Node) (s : Scaleset)
    (ntr : Int) :
    0 ≤ (s.size - (scale_down_step free s ntr).1.size) +
        (shutdownCount (scale_down_step free s ntr).2.1 : Int) ∧
      (s.size - (scale_down_step free s ntr).1.size) +
        (shutdownCount (scale_down_step free s ntr).2.1 : Int) ≤
        ((free s.scaleset_id).length : Int) := by
  by_cases hc : free s.scaleset_id ≠ [] ∧ 0 < ntr
  · by_cases hr : min ((free s.scaleset_id).length : Int) ntr ≥ s.size ∧
        ((free s.scaleset_id).length : Int) = s.size
    · rw [scale_down_step_retire free s ntr hc hr]
      simp only [shutdownCount, List.countP_cons]
      rw [show List.countP _ ((free s.scaleset_id).map
            fun nd => Event.shutdownNode nd.machine_id) =
          (free s.scaleset_id).length from
        shutdownCount_map_shutdown (free s.scaleset_id)]
      constructor <;> simp
    · rw [scale_down_step_shrink free s ntr hc hr]
      have hlen : 0 < ((free s.scaleset_id).length : Int) := by
        have := List.length_pos.mpr hc.1
        exact_mod_cast this
      have h2 : 0 < ntr := hc.2
      have hmin1 : min ((free s.scaleset_id).length : Int) ntr ≤
          ((free s.scaleset_id).length : Int) := min_le_left _ _
      have hmin3 : 0 < min ((free s.scaleset_id).length : Int) ntr :=
        lt_min hlen h2
      simp only [shutdownCount, List.countP_cons, List.countP_nil]
      constructor <;> (simp; try omega)
  · rw [scale_down_step_skip free s ntr hc]
    constructor <;> simp [shutdownCount]

theorem scale_down_events_nil (free : Nat → List Node) :
    ∀ (ss : List Scaleset) (ntr : Int),
      (scale_down free ss ntr).2 = [] → (scale_down free ss ntr).1 = ss := by
  intro ss
  induction ss with
  | nil => intro ntr _; rfl
  | cons s rest ih =>
    intro ntr h
    simp only [scale_down, List.append_eq_nil] at h
    have hstep := scale_down_step_evs_nil free s ntr h.1
    have h2 := h.2
    rw [hstep] at h2
    have hcons : (scale_down free (s :: rest) ntr).1 =
        s :: (scale_down free rest ntr).1 := by
      simp [scale_down, hstep]
    rw [hcons, ih ntr h2]

theorem scale_down_events_ne (free : Nat → List Node) :
    ∀ (ss : List Scaleset) (ntr : Int),
      (scale_down free ss ntr).2 ≠ [] →
      ∃ u ∈ (scale_down free ss ntr).1,
        u.state ∈ ScalesetState.modifying := by
  intro ss
  induction ss with
  | nil => intro ntr h; exact absurd rfl h
  | cons s rest ih =>
    intro ntr h
    simp only [scale_down] at h ⊢
    by_cases hstep : (scale_down_step free s ntr).2.1 = []
    · have hne : (scale_down free rest (scale_down_step free s ntr).2.2).2 ≠ [] := by
        intro hc
        rw [hstep, hc] at h
        exact h rfl
      rcases ih _ hne with ⟨u, hu, hmu⟩
      exact ⟨u, List.mem_cons_of_mem _ hu, hmu⟩
    · exact ⟨_, List.mem_cons_self _ _, scale_down_step_state free s ntr hstep⟩

/-- The removal ghost list is pointwise nonnegative and bounded by the
free-node counts. -/
theorem scale_down_removals_spec (free : Nat → List Node) :
    ∀ (ss : List Scaleset) (ntr : Int),
      List.Forall₂
        (fun o r => 0 ≤ r ∧ r ≤ ((free o.scaleset_id).length : Int))
        ss (scale_down_removals free ss ntr) := by
  intro ss
  induction ss with
  | nil => intro ntr; simp [scale_down_removals]
  | cons s rest ih =>
    intro ntr
    exact List.Forall₂.cons (scale_down_step_removal free s ntr) (ih _)

/-- The removal ghost list accounts exactly for the total size
reduction plus the shutdown commands of `scale_down`. -/
theorem scale_down_removals_total (free : Nat → List Node) :
    ∀ (ss : List Scaleset) (ntr : Int),
      (sumSizes ss - sumSizes (scale_down free ss ntr).1) +
          (shutdownCount (scale_down free ss ntr).2 : Int) =
        (scale_down_removals free ss ntr).sum := by
  intro ss
  induction ss with
  | nil => intro ntr; simp [scale_down, scale_down_removals, sumSizes, shutdownCount]
  | cons s rest ih =>
    intro ntr
    have hrec := ih (scale_down_step free s ntr).2.2
    simp only [scale_down, scale_down_removals, sumSizes, List.map_cons,
      List.sum_cons, shutdownCount, List.countP_append] at hrec ⊢
    push_cast
    omega

/-- Summing a pointwise-bounded removal list is dominated by the free
totals of the entries actually reclaimed from (nonzero removals). -/
theorem removals_le_reclaimed (free : Nat → List Node) :
    ∀ (ss : List Scaleset) (rem : List Int),
      List.Forall₂
        (fun o r => 0 ≤ r ∧ r ≤ ((free o.scaleset_id).length : Int))
        ss rem →
      rem.sum ≤ reclaimedFreeTotal free ss rem := by
  intro ss rem h
  induction h with
  | nil => simp [reclaimedFreeTotal]
  | @cons o r ss' rem' hor _ ih =>
    by_cases hr : r = 0
    · subst hr
      simp only [reclaimedFreeTotal, List.zip_cons_cons, List.filter_cons] at ih ⊢
      simp only [bne_self_eq_false, if_false, List.sum_cons]
      simpa using ih
    · simp only [reclaimedFreeTotal, List.zip_cons_cons, List.filter_cons] at ih ⊢
      have : (r != 0) = true := by simpa using hr
      rw [this]
      simp only [if_true, List.map_cons, List.sum_cons, List.sum_cons]
      have := hor.2
      omega

/-! ### Branch equations for `scale_up` and `tick_pool` -/

theorem scale_up_none_eq (smax : String → Int) (pool : Pool)
    (ss : List Scaleset) (n : Int) (h : pool.autoscale = none) :
    scale_up smax pool ss n = ⟨ss, [], [], none⟩ := by
  simp [scale_up, h]

theorem scale_up_early_eq (smax : String → Int) (pool : Pool)
    (ss : List Scaleset) (n : Int) (conf : AutoScaleConfig)
    (h : pool.autoscale = some conf)
    (he : (scale_up_fill smax conf ss n).early = true) :
    scale_up smax pool ss n =
      ⟨(scale_up_fill smax conf ss n).updated, [],
       (scale_up_fill smax conf ss n).events, none⟩ := by
  simp [scale_up, h, he]

theorem scale_up_div0_eq (smax : String → Int) (pool : Pool)
    (ss : List Scaleset) (n : Int) (conf : AutoScaleConfig)
    (h : pool.autoscale = some conf)
    (he : (scale_up_fill smax conf ss n).early = false)
    (hcap : min (smax conf.image) conf.scaleset_size = 0) :
    scale_up smax pool ss n =
      ⟨(scale_up_fill smax conf ss n).updated, [],
       (scale_up_fill smax conf ss n).events,
       some ScaleUpError.divByZero⟩ := by
  simp [scale_up, h, he, hcap]

theorem scale_up_main_eq (smax : String → Int) (pool : Pool)
    (ss : List Scaleset) (n : Int) (conf : AutoScaleConfig)
    (h : pool.autoscale = some conf)
    (he : (scale_up_fill smax conf ss n).early = false)
    (hcap : ¬(min (smax conf.image) conf.scaleset_size = 0)) :
    scale_up smax pool ss n =
      ⟨(scale_up_fill smax conf ss n).updated,
       (scale_up_create smax conf pool.name
         ((pyCeilDiv (scale_up_fill smax conf ss n).nodes_needed
           (min (smax conf.image) conf.scaleset_size)).toNat)
         (scale_up_fill smax conf ss n).nodes_needed 0).1,
       (scale_up_fill smax conf ss n).events ++
         (scale_up_create smax conf pool.name
           ((pyCeilDiv (scale_up_fill smax conf ss n).nodes_needed
             (min (smax conf.image) conf.scaleset_size)).toNat)
           (scale_up_fill smax conf ss n).nodes_needed 0).2.1,
       (scale_up_create smax conf pool.name
         ((pyCeilDiv (scale_up_fill smax conf ss n).nodes_needed
           (min (smax conf.image) conf.scaleset_size)).toNat)
         (scale_up_fill smax conf ss n).nodes_needed 0).2.2⟩ := by
  simp [scale_up, h, he, hcap]

/-- The fill-phase output is the `updated` component of `scale_up` in
every branch. -/
theorem scale_up_updated_eq (smax : String → Int) (pool : Pool)
    (ss : List Scaleset) (n : Int) (conf : AutoScaleConfig)
    (h : pool.autoscale = some conf) :
    (scale_up smax pool ss n).updated =
      (scale_up_fill smax conf ss n).updated := by
  by_cases he : (scale_up_fill smax conf ss n).early = true
  · rw [scale_up_early_eq smax pool ss n conf h he]
  · have he' : (scale_up_fill smax conf ss n).early = false := by
      revert he; cases (scale_up_fill smax conf ss n).early <;> simp
    by_cases hcap : min (smax conf.image) conf.scaleset_size = 0
    · rw [scale_up_div0_eq smax pool ss n conf h he' hcap]
    · rw [scale_up_main_eq smax pool ss n conf h he' hcap]

theorem tick_pool_none_eq (env : Env) (pool : Pool)
    (h : pool.autoscale = none) :
    tick_pool env pool =
      ⟨env.scalesets_by_pool pool.name, [], none, none⟩ := by
  simp [tick_pool, h]

theorem tick_pool_busy_eq (env : Env) (pool : Pool)
    (conf : AutoScaleConfig) (h : pool.autoscale = some conf)
    (hb : (busy_scan (env.scalesets_by_pool pool.name)
      (demand conf (env.tasks_by_pool pool.name))).1 = true) :
    tick_pool env pool =
      ⟨env.scalesets_by_pool pool.name, [], none,
       some (busy_scan (env.scalesets_by_pool pool.name)
         (demand conf (env.tasks_by_pool pool.name))).2⟩ := by
  simp [tick_pool, h, hb]

theorem tick_pool_up_eq (env : Env) (pool : Pool)
    (conf : AutoScaleConfig) (h : pool.autoscale = some conf)
    (hb : (busy_scan (env.scalesets_by_pool pool.name)
      (demand conf (env.tasks_by_pool pool.name))).1 = false)
    (hpos : 0 < (busy_scan (env.scalesets_by_pool pool.name)
      (demand conf (env.tasks_by_pool pool.name))).2) :
    tick_pool env pool =
      ⟨(scale_up env.scaleset_max_size pool (env.scalesets_by_pool pool.name)
          (busy_scan (env.scalesets_by_pool pool.name)
            (demand conf (env.tasks_by_pool pool.name))).2).updated ++
        (scale_up env.scaleset_max_size pool (env.scalesets_by_pool pool.name)
          (busy_scan (env.scalesets_by_pool pool.name)
            (demand conf (env.tasks_by_pool pool.name))).2).created,
       (scale_up env.scaleset_max_size pool (env.scalesets_by_pool pool.name)
         (busy_scan (env.scalesets_by_pool pool.name)
           (demand conf (env.tasks_by_pool pool.name))).2).events,
       (scale_up env.scaleset_max_size pool (env.scalesets_by_pool pool.name)
         (busy_scan (env.scalesets_by_pool pool.name)
           (demand conf (env.tasks_by_pool pool.name))).2).error,
       some (busy_scan (env.scalesets_by_pool pool.name)
         (demand conf (env.tasks_by_pool pool.name))).2⟩ := by
  simp [tick_pool, h, hb, hpos]

theorem tick_pool_down_eq (env : Env) (pool : Pool)
    (conf : AutoScaleConfig) (h : pool.autoscale = some conf)
    (hb : (busy_scan (env.scalesets_by_pool pool.name)
      (demand conf (env.tasks_by_pool pool.name))).1 = false)
    (hneg : (busy_scan (env.scalesets_by_pool pool.name)
      (demand conf (env.tasks_by_pool pool.name))).2 < 0) :
    tick_pool env pool =
      ⟨(scale_down env.node_search_free (env.scalesets_by_pool pool.name)
          |(busy_scan (env.scalesets_by_pool pool.name)
            (demand conf (env.tasks_by_pool pool.name))).2|).1,
       (scale_down env.node_search_free (env.scalesets_by_pool pool.name)
         |(busy_scan (env.scalesets_by_pool pool.name)
           (demand conf (env.tasks_by_pool pool.name))).2|).2,
       none,
       some (busy_scan (env.scalesets_by_pool pool.name)
         (demand conf (env.tasks_by_pool pool.name))).2⟩ := by
  have hnpos : ¬(0 < (busy_scan (env.scalesets_by_pool pool.name)
      (demand conf (env.tasks_by_pool pool.name))).2) := by omega
  simp [tick_pool, h, hb, hnpos, hneg]

theorem tick_pool_zero_eq (env : Env) (pool : Pool)
    (conf : AutoScaleConfig) (h : pool.autoscale = some conf)
    (hb : (busy_scan (env.scalesets_by_pool pool.name)
      (demand conf (env.tasks_by_pool pool.name))).1 = false)
    (hz : (busy_scan (env.scalesets_by_pool pool.name)
      (demand conf (env.tasks_by_pool pool.name))).2 = 0) :
    tick_pool env pool =
      ⟨env.scalesets_by_pool pool.name, [], none,
       some (busy_scan (env.scalesets_by_pool pool.name)
         (demand conf (env.tasks_by_pool pool.name))).2⟩ := by
  have hnpos : ¬(0 < (busy_scan (env.scalesets_by_pool pool.name)
      (demand conf (env.tasks_by_pool pool.name))).2) := by omega
  have hnneg : ¬((busy_scan (env.scalesets_by_pool pool.name)
      (demand conf (env.tasks_by_pool pool.name))).2 < 0) := by omega
  simp [tick_pool, h, hb, hnpos, hnneg]

theorem busy_scan_false_all (ss : List Scaleset) (n : Int)
    (h : (busy_scan ss n).1 = false) :
    ∀ s ∈ ss, s.state ∉ ScalesetState.modifying := by
  intro s hs hmem
  have := (busy_scan_true_iff ss n).mpr ⟨s, hs, hmem⟩
  rw [h] at this
  exact absurd this (by simp)

theorem sumSizes_append (a b : List Scaleset) :
    sumSizes (a ++ b) = sumSizes a + sumSizes b := by
  simp [sumSizes]

/-- Processing a pool depends on the environment only through the
pool's own task list, its scaleset list, the free-node query and the
size table. -/
theorem tick_pool_congr (env env2 : Env) (pool : Pool)
    (h1 : env2.tasks_by_pool pool.name = env.tasks_by_pool pool.name)
    (h2 : env2.scalesets_by_pool pool.name = env.scalesets_by_pool pool.name)
    (h3 : env2.node_search_free = env.node_search_free)
    (h4 : env2.scaleset_max_size = env.scaleset_max_size) :
    tick_pool env2 pool = tick_pool env pool := by
  unfold tick_pool
  rw [h1, h2, h3, h4]

/-- A pool with a mid-transition scaleset is skipped entirely. -/
theorem tick_pool_suppressed (env : Env) (pool : Pool)
    (hbusy : ∃ s ∈ env.scalesets_by_pool pool.name,
      s.state ∈ ScalesetState.modifying) :
    (tick_pool env pool).events = [] ∧
    (tick_pool env pool).error = none ∧
    (tick_pool env pool).scalesets = env.scalesets_by_pool pool.name := by
  cases hconf : pool.autoscale with
  | none =>
    rw [tick_pool_none_eq env pool hconf]
    exact ⟨rfl, rfl, rfl⟩
  | some conf =>
    have hb : (busy_scan (env.scalesets_by_pool pool.name)
        (demand conf (env.tasks_by_pool pool.name))).1 = true :=
      (busy_scan_true_iff _ _).mpr hbusy
    rw [tick_pool_busy_eq env pool conf hconf hb]
    exact ⟨rfl, rfl, rfl⟩

/-! ### Demand estimation -/

/-- `get_vm_count` sums exactly the per-task demand contributions. -/
theorem get_vm_count_eq (tasks : List Task) :
    get_vm_count tasks = (tasks.map taskDemand).sum := by
  have key : ∀ (l : List Task) (acc : Int),
      List.foldl
        (fun count task =>
          match task.get_pool_result, task.config_pool with
          | some _, some tp => count + tp.count
          | _, _ => count)
        acc l = acc + (l.map taskDemand).sum := by
    intro l
    induction l with
    | nil => intro acc; simp
    | cons t rest ih =>
      intro acc
      rcases h1 : t.get_pool_result with _ | p <;>
        rcases h2 : t.config_pool with _ | tp <;>
          (simp [h1, h2, ih, taskDemand]; try ring)
  simpa [get_vm_count] using key tasks 0

/-- The final `nodes_needed` of one pool's processing is the value the
scaleset scan leaves, in every branch. -/
theorem tick_pool_nodes_needed (env : Env) (pool : Pool)
    (conf : AutoScaleConfig) (hconf : pool.autoscale = some conf) :
    (tick_pool env pool).nodes_needed =
      some (busy_scan (env.scalesets_by_pool pool.name)
        (demand conf (env.tasks_by_pool pool.name))).2 := by
  by_cases hb : (busy_scan (env.scalesets_by_pool pool.name)
      (demand conf (env.tasks_by_pool pool.name))).1 = true
  · rw [tick_pool_busy_eq env pool conf hconf hb]
  · have hb' : (busy_scan (env.scalesets_by_pool pool.name)
        (demand conf (env.tasks_by_pool pool.name))).1 = false := by
      simpa using hb
    rcases lt_trichotomy (0 : Int)
        (busy_scan (env.scalesets_by_pool pool.name)
          (demand conf (env.tasks_by_pool pool.name))).2 with h | h | h
    · rw [tick_pool_up_eq env pool conf hconf hb' h]
    · rw [tick_pool_zero_eq env pool conf hconf hb' h.symm]
    · rw [tick_pool_down_eq env pool conf hconf hb' h]

/-! ### Claim theorems -/

/-- Claim C1: busy-pool suppression.  If any of the pool's scalesets is
in the `modifying` state set, the tick issues no mutation for that pool:
no commands, no exception, and the scaleset list is untouched. -/
theorem busy_pool_suppression (env : Env) (pool : Pool)
    (hbusy : ∃ s ∈ env.scalesets_by_pool pool.name,
      s.state ∈ ScalesetState.modifying) :
    (tick_pool env pool).events = [] ∧
    (tick_pool env pool).error = none ∧
    (tick_pool env pool).scalesets = env.scalesets_by_pool pool.name :=
  tick_pool_suppressed env pool hbusy

/-- Claim C3: cap respect.  Every existing scaleset is either left
untouched by `scale_up` or was strictly below
`min(per-image max size, configured target size)` and ends at or below
that cap; every created scaleset is at or below the creation cap. -/
theorem scale_up_cap_respect (smax : String → Int) (pool : Pool)
    (ss : List Scaleset) (n : Int) (conf : AutoScaleConfig)
    (hconf : pool.autoscale = some conf) :
    List.Forall₂
      (fun o u => u = o ∨
        (o.size < min (smax o.image) conf.scaleset_size ∧
         u.size ≤ min (smax o.image) conf.scaleset_size))
      ss (scale_up smax pool ss n).updated ∧
    ∀ c ∈ (scale_up smax pool ss n).created,
      c.size ≤ min (smax conf.image) conf.scaleset_size := by
  constructor
  · rw [scale_up_updated_eq smax pool ss n conf hconf]
    exact scale_up_fill_cap smax conf ss n
  · intro c hc
    by_cases he : (scale_up_fill smax conf ss n).early = true
    · rw [scale_up_early_eq smax pool ss n conf hconf he] at hc
      simp at hc
    · have he' : (scale_up_fill smax conf ss n).early = false := by
        simpa using he
      by_cases hc0 : min (smax conf.image) conf.scaleset_size = 0
      · rw [scale_up_div0_eq smax pool ss n conf hconf he' hc0] at hc
        simp at hc
      · rw [scale_up_main_eq smax pool ss n conf hconf he' hc0] at hc
        exact (scale_up_create_mem smax conf pool.name _ _ _ c hc).2

/-- Claim C10: a zero creation cap makes the ceil division raise
`ZeroDivisionError` before any scaleset is created; a positive cap makes
the division well-defined with at least one loop iteration. -/
theorem scale_up_zero_cap (smax : String → Int) (pool : Pool)
    (ss : List Scaleset) (n : Int) (conf : AutoScaleConfig)
    (hconf : pool.autoscale = some conf)
    (he : (scale_up_fill smax conf ss n).early = false)
    (hnn : 0 < (scale_up_fill smax conf ss n).nodes_needed) :
    (min (smax conf.image) conf.scaleset_size = 0 →
      (scale_up smax pool ss n).error = some ScaleUpError.divByZero ∧
      (scale_up smax pool ss n).created = [] ∧
      createCount (scale_up smax pool ss n).events = 0) ∧
    (0 < min (smax conf.image) conf.scaleset_size →
      0 < (pyCeilDiv (scale_up_fill smax conf ss n).nodes_needed
        (min (smax conf.image) conf.scaleset_size)).toNat ∧
      ((scale_up smax pool ss n).error = some ScaleUpError.missingRegion ∨
        (scale_up smax pool ss n).created ≠ [])) := by
  constructor
  · intro hcap
    rw [scale_up_div0_eq smax pool ss n conf hconf he hcap]
    exact ⟨rfl, rfl, (scale_up_fill_spec smax conf ss n).2.2.2.2.2⟩
  · intro hcap
    have hne : ¬(min (smax conf.image) conf.scaleset_size = 0) := by omega
    have hk : 0 < pyCeilDiv (scale_up_fill smax conf ss n).nodes_needed
        (min (smax conf.image) conf.scaleset_size) := pyCeilDiv_pos hnn hcap
    obtain ⟨j, hj⟩ : ∃ j, (pyCeilDiv (scale_up_fill smax conf ss n).nodes_needed
        (min (smax conf.image) conf.scaleset_size)).toNat = j + 1 :=
      ⟨(pyCeilDiv (scale_up_fill smax conf ss n).nodes_needed
        (min (smax conf.image) conf.scaleset_size)).toNat - 1, by omega⟩
    refine ⟨by omega, ?_⟩
    rw [scale_up_main_eq smax pool ss n conf hconf he hne]
    by_cases hreg : strOptTruthy conf.region = true
    · right
      show (scale_up_create smax conf pool.name
        ((pyCeilDiv (scale_up_fill smax conf ss n).nodes_needed
          (min (smax conf.image) conf.scaleset_size)).toNat)
        (scale_up_fill smax conf ss n).nodes_needed 0).1 ≠ []
      rw [hj]
      exact scale_up_create_head smax conf pool.name hreg j _ 0
    · left
      have hreg' : strOptTruthy conf.region = false := by simpa using hreg
      show (scale_up_create smax conf pool.name
        ((pyCeilDiv (scale_up_fill smax conf ss n).nodes_needed
          (min (smax conf.image) conf.scaleset_size)).toNat)
        (scale_up_fill smax conf ss n).nodes_needed 0).2.2 =
        some ScaleUpError.missingRegion
      rw [hj, scale_up_create_missing smax conf pool.name hreg' j _ 0]

/-- Claim C7 (amended): with demand remaining after the fill loop, a
falsy region, and a nonnegative creation cap, `scale_up` raises before
any scaleset is created; fill-loop resizes already issued are kept. -/
theorem scale_up_missing_region_aborts (smax : String → Int) (pool : Pool)
    (ss : List Scaleset) (n : Int) (conf : AutoScaleConfig)
    (hconf : pool.autoscale = some conf)
    (hreg : strOptTruthy conf.region = false)
    (he : (scale_up_fill smax conf ss n).early = false)
    (hnn : 0 < (scale_up_fill smax conf ss n).nodes_needed)
    (hcap : 0 ≤ min (smax conf.image) conf.scaleset_size) :
    (scale_up smax pool ss n).error.isSome = true ∧
    (scale_up smax pool ss n).created = [] ∧
    createCount (scale_up smax pool ss n).events = 0 ∧
    (scale_up smax pool ss n).updated =
      (scale_up_fill smax conf ss n).updated := by
  by_cases hc0 : min (smax conf.image) conf.scaleset_size = 0
  · rw [scale_up_div0_eq smax pool ss n conf hconf he hc0]
    exact ⟨rfl, rfl, (scale_up_fill_spec smax conf ss n).2.2.2.2.2, rfl⟩
  · have hcpos : 0 < min (smax conf.image) conf.scaleset_size := by omega
    have hk : 0 < pyCeilDiv (scale_up_fill smax conf ss n).nodes_needed
        (min (smax conf.image) conf.scaleset_size) := pyCeilDiv_pos hnn hcpos
    obtain ⟨j, hj⟩ : ∃ j, (pyCeilDiv (scale_up_fill smax conf ss n).nodes_needed
        (min (smax conf.image) conf.scaleset_size)).toNat = j + 1 :=
      ⟨(pyCeilDiv (scale_up_fill smax conf ss n).nodes_needed
        (min (smax conf.image) conf.scaleset_size)).toNat - 1, by omega⟩
    rw [scale_up_main_eq smax pool ss n conf hconf he hc0]
    refine ⟨?_, ?_, ?_, rfl⟩
    · show ((scale_up_create smax conf pool.name
        ((pyCeilDiv (scale_up_fill smax conf ss n).nodes_needed
          (min (smax conf.image) conf.scaleset_size)).toNat)
        (scale_up_fill smax conf ss n).nodes_needed 0).2.2).isSome = true
      rw [hj, scale_up_create_missing smax conf pool.name hreg j _ 0]
      rfl
    · show (scale_up_create smax conf pool.name
        ((pyCeilDiv (scale_up_fill smax conf ss n).nodes_needed
          (min (smax conf.image) conf.scaleset_size)).toNat)
        (scale_up_fill smax conf ss n).nodes_needed 0).1 = []
      rw [hj, scale_up_create_missing smax conf pool.name hreg j _ 0]
    · show createCount ((scale_up_fill smax conf ss n).events ++
        (scale_up_create smax conf pool.name
          ((pyCeilDiv (scale_up_fill smax conf ss n).nodes_needed
            (min (smax conf.image) conf.scaleset_size)).toNat)
          (scale_up_fill smax conf ss n).nodes_needed 0).2.1) = 0
      rw [hj, scale_up_create_missing smax conf pool.name hreg j _ 0]
      have h6 := (scale_up_fill_spec smax conf ss n).2.2.2.2.2
      simp only [createCount, List.countP_append, List.countP_nil] at h6 ⊢
      omega

/-- Claim C2 (amended): conservation on scale-up, assuming the creation
cap `min(per-image max size, scaleset_size)` is nonnegative.  When
`scale_up` completes without raising, the total size increase of
existing scalesets plus the sizes of the created scalesets equals the
requested `nodes_needed`. -/
theorem scale_up_conservation (smax : String → Int) (pool : Pool)
    (ss : List Scaleset) (n : Int) (conf : AutoScaleConfig)
    (hconf : pool.autoscale = some conf)
    (hn : 0 < n)
    (hcap : 0 ≤ min (smax conf.image) conf.scaleset_size)
    (herr : (scale_up smax pool ss n).error = none) :
    (sumSizes (scale_up smax pool ss n).updated - sumSizes ss) +
      sumSizes (scale_up smax pool ss n).created = n := by
  obtain ⟨hsum, hearly, _, _, hpos, _⟩ := scale_up_fill_spec smax conf ss n
  by_cases he : (scale_up_fill smax conf ss n).early = true
  · rw [scale_up_early_eq smax pool ss n conf hconf he]
    have h0 := (hearly he).1
    show sumSizes (scale_up_fill smax conf ss n).updated - sumSizes ss +
      sumSizes [] = n
    simp only [sumSizes, List.map_nil, List.sum_nil]
    simp only [sumSizes] at hsum
    omega
  · have he' : (scale_up_fill smax conf ss n).early = false := by
      simpa using he
    have hnn : 0 < (scale_up_fill smax conf ss n).nodes_needed := hpos hn he'
    by_cases hc0 : min (smax conf.image) conf.scaleset_size = 0
    · rw [scale_up_div0_eq smax pool ss n conf hconf he' hc0] at herr
      simp at herr
    · have hcpos : 0 < min (smax conf.image) conf.scaleset_size := by omega
      rw [scale_up_main_eq smax pool ss n conf hconf he' hc0] at herr ⊢
      by_cases hreg : strOptTruthy conf.region = true
      · have hk : 0 < pyCeilDiv (scale_up_fill smax conf ss n).nodes_needed
            (min (smax conf.image) conf.scaleset_size) := pyCeilDiv_pos hnn hcpos
        have hcast : (((pyCeilDiv (scale_up_fill smax conf ss n).nodes_needed
            (min (smax conf.image) conf.scaleset_size)).toNat : Nat) : Int) =
            pyCeilDiv (scale_up_fill smax conf ss n).nodes_needed
              (min (smax conf.image) conf.scaleset_size) :=
          Int.toNat_of_nonneg (le_of_lt hk)
        obtain ⟨hb1, hb2⟩ := pyCeilDiv_bounds
          (n := (scale_up_fill smax conf ss n).nodes_needed) hcpos
        have hsumc := scale_up_create_sum smax conf pool.name hreg
          ((pyCeilDiv (scale_up_fill smax conf ss n).nodes_needed
            (min (smax conf.image) conf.scaleset_size)).toNat)
          (scale_up_fill smax conf ss n).nodes_needed 0 hcpos hnn
          (by rw [hcast]; exact hb2) (by rw [hcast]; exact hb1)
        show sumSizes (scale_up_fill smax conf ss n).updated - sumSizes ss +
          sumSizes (scale_up_create smax conf pool.name
            ((pyCeilDiv (scale_up_fill smax conf ss n).nodes_needed
              (min (smax conf.image) conf.scaleset_size)).toNat)
            (scale_up_fill smax conf ss n).nodes_needed 0).1 = n
        rw [hsumc]
        omega
      · have hreg' : strOptTruthy conf.region = false := by simpa using hreg
        obtain ⟨j, hj⟩ : ∃ j,
            (pyCeilDiv (scale_up_fill smax conf ss n).nodes_needed
              (min (smax conf.image) conf.scaleset_size)).toNat = j + 1 :=
          ⟨(pyCeilDiv (scale_up_fill smax conf ss n).nodes_needed
            (min (smax conf.image) conf.scaleset_size)).toNat - 1,
           by have := pyCeilDiv_pos hnn hcpos; omega⟩
        have herr' : (scale_up_create smax conf pool.name
            ((pyCeilDiv (scale_up_fill smax conf ss n).nodes_needed
              (min (smax conf.image) conf.scaleset_size)).toNat)
            (scale_up_fill smax conf ss n).nodes_needed 0).2.2 = none := herr
        rw [hj, scale_up_create_missing smax conf pool.name hreg' j _ 0] at herr'
        simp at herr'

/-- Claim C4: no over-reclamation.  The per-scaleset removal list of
`scale_down` is pointwise nonnegative and bounded by the scaleset's
free-node count, it accounts exactly for the size reductions plus the
shutdown commands of `scale_down`, and its total is bounded by the
total free-node count of the scalesets reclaimed from. -/
theorem scale_down_no_over_reclamation (free : Nat → List Node)
    (ss : List Scaleset) (ntr : Int) :
    List.Forall₂
      (fun o r => 0 ≤ r ∧ r ≤ ((free o.scaleset_id).length : Int))
      ss (scale_down_removals free ss ntr) ∧
    (sumSizes ss - sumSizes (scale_down free ss ntr).1) +
        (shutdownCount (scale_down free ss ntr).2 : Int) =
      (scale_down_removals free ss ntr).sum ∧
    (scale_down_removals free ss ntr).sum ≤
      reclaimedFreeTotal free ss (scale_down_removals free ss ntr) :=
  ⟨scale_down_removals_spec free ss ntr,
   scale_down_removals_total free ss ntr,
   removals_le_reclaimed free ss _ (scale_down_removals_spec free ss ntr)⟩

/-- Claim C5: full-retirement rule.  A `scale_down` step transitions a
scaleset to `shutdown` (saving it unchanged in size and shutting down
each of its free nodes, which are exactly `size` many) precisely when
free nodes exist, removal demand remains,
`min(len(free), nodes_to_remove) >= size` and `len(free) == size`; in
every other case with free nodes and positive demand it shrinks the
scaleset by `min(len(free), nodes_to_remove)` and marks it `resize`. -/
theorem scale_down_full_retirement (free : Nat → List Node)
    (s : Scaleset) (ntr : Int) :
    (((free s.scaleset_id ≠ [] ∧ 0 < ntr) ∧
        min ((free s.scaleset_id).length : Int) ntr ≥ s.size ∧
        ((free s.scaleset_id).length : Int) = s.size) ↔
      ((scale_down_step free s ntr).1 =
          { s with state := ScalesetState.shutdown } ∧
        (scale_down_step free s ntr).2.1 =
          Event.saveScaleset { s with state := ScalesetState.shutdown } ::
            (free s.scaleset_id).map
              (fun nd => Event.shutdownNode nd.machine_id) ∧
        (scale_down_step free s ntr).2.2 = ntr - s.size)) ∧
    (((free s.scaleset_id ≠ [] ∧ 0 < ntr) ∧
        ¬(min ((free s.scaleset_id).length : Int) ntr ≥ s.size ∧
          ((free s.scaleset_id).length : Int) = s.size)) →
      (scale_down_step free s ntr).1 =
        { s with size := s.size - min ((free s.scaleset_id).length : Int) ntr,
                 state := ScalesetState.resize } ∧
      (scale_down_step free s ntr).2.2 =
        ntr - min ((free s.scaleset_id).length : Int) ntr) := by
  constructor
  · constructor
    · rintro ⟨hc, hr⟩
      rw [scale_down_step_retire free s ntr hc hr]
      exact ⟨rfl, rfl, rfl⟩
    · rintro ⟨h1, h2, _⟩
      by_cases hc : free s.scaleset_id ≠ [] ∧ 0 < ntr
      · by_cases hr : min ((free s.scaleset_id).length : Int) ntr ≥ s.size ∧
            ((free s.scaleset_id).length : Int) = s.size
        · exact ⟨hc, hr⟩
        · rw [scale_down_step_shrink free s ntr hc hr] at h1
          simp at h1
      · rw [scale_down_step_skip free s ntr hc] at h2
        simp at h2
  · rintro ⟨hc, hr⟩
    rw [scale_down_step_shrink free s ntr hc hr]
    exact ⟨rfl, rfl⟩

/-- Claim C6 (amended): demand estimation.  `get_vm_count` sums the
requested node counts of the tasks whose pool reference resolves and is
well-typed (others contribute zero); the demand is raised to at least
`min_size`; it is clamped to `max_size` when `max_size` is set and
nonzero, while a `max_size` of `0` is treated as unset by the
truthiness test. -/
theorem demand_estimation (conf : AutoScaleConfig) (tasks : List Task) :
    get_vm_count tasks = (tasks.map taskDemand).sum ∧
    (conf.max_size = none →
      demand conf tasks = max ((tasks.map taskDemand).sum) conf.min_size) ∧
    (∀ m : Int, conf.max_size = some m → m ≠ 0 →
      demand conf tasks =
        min (max ((tasks.map taskDemand).sum) conf.min_size) m) ∧
    (conf.max_size = some 0 →
      demand conf tasks = max ((tasks.map taskDemand).sum) conf.min_size) := by
  refine ⟨get_vm_count_eq tasks, ?_, ?_, ?_⟩
  · intro h
    simp [demand, h, get_vm_count_eq]
  · intro m hm hmne
    have hb : (m != 0) = true := by simpa using hmne
    simp [demand, hm, hb, get_vm_count_eq]
  · intro h
    simp [demand, h, get_vm_count_eq]

/-- Claim C9 (amended): the per-pool delta is the desired capacity
minus the sizes of the scalesets strictly before the first
mid-transition one (the scan breaks there, so mid-transition scalesets
and those after them are not subtracted); when no scaleset is
mid-transition it is the desired capacity minus the sum of all current
sizes. -/
theorem delta_computation (env : Env) (pool : Pool)
    (conf : AutoScaleConfig) (hconf : pool.autoscale = some conf) :
    (tick_pool env pool).nodes_needed =
      some (demand conf (env.tasks_by_pool pool.name) -
        sumSizes ((env.scalesets_by_pool pool.name).takeWhile
          (fun s => !decide (s.state ∈ ScalesetState.modifying)))) ∧
    ((∀ s ∈ env.scalesets_by_pool pool.name,
        s.state ∉ ScalesetState.modifying) →
      (tick_pool env pool).nodes_needed =
        some (demand conf (env.tasks_by_pool pool.name) -
          sumSizes (env.scalesets_by_pool pool.name))) := by
  constructor
  · rw [tick_pool_nodes_needed env pool conf hconf, busy_scan_val]
  · intro hall
    rw [tick_pool_nodes_needed env pool conf hconf,
      busy_scan_not_busy _ _ hall]

/-- Claim C8 (amended): if no external state changes between ticks and
the first tick's processing of a pool completes without raising, the
second tick issues no mutation for that pool.  (The recomputed
`nodes_needed` need not be `0` on the second run.) -/
theorem tick_pool_second_run_no_mutations (env : Env) (pool : Pool)
    (herr : (tick_pool env pool).error = none) :
    (tick_pool (envAfter env pool (tick_pool env pool)) pool).events = [] := by
  have henvT : (envAfter env pool (tick_pool env pool)).tasks_by_pool = env.tasks_by_pool := rfl
  have henvF : (envAfter env pool (tick_pool env pool)).node_search_free = env.node_search_free := rfl
  have henvM : (envAfter env pool (tick_pool env pool)).scaleset_max_size = env.scaleset_max_size := rfl
  have henvS : (envAfter env pool (tick_pool env pool)).scalesets_by_pool pool.name =
      (tick_pool env pool).scalesets := by
    simp [envAfter]
  cases hconf : pool.autoscale with
  | none =>
    rw [tick_pool_none_eq (envAfter env pool (tick_pool env pool)) pool hconf]
  | some conf =>
    by_cases hb : (busy_scan (env.scalesets_by_pool pool.name) (demand conf (env.tasks_by_pool pool.name))).1 = true
    · -- the first tick was itself suppressed: nothing changed
      have hr := tick_pool_busy_eq env pool conf hconf hb
      have hS : (tick_pool env pool).scalesets = (env.scalesets_by_pool pool.name) := by
        rw [hr]
      rw [tick_pool_congr env (envAfter env pool (tick_pool env pool)) pool (congrFun henvT pool.name)
        (by rw [henvS, hS]) henvF henvM]
      rw [hr]
    · have hb' : (busy_scan (env.scalesets_by_pool pool.name) (demand conf (env.tasks_by_pool pool.name))).1 = false := by simpa using hb
      have hall := busy_scan_false_all (env.scalesets_by_pool pool.name) (demand conf (env.tasks_by_pool pool.name)) hb'
      rcases lt_trichotomy (0 : Int) (busy_scan (env.scalesets_by_pool pool.name) (demand conf (env.tasks_by_pool pool.name))).2 with hpos | hzero | hneg
      · -- scale-up ran on the first tick
        have hr := tick_pool_up_eq env pool conf hconf hb' hpos
        have herr2 : (scale_up env.scaleset_max_size pool (env.scalesets_by_pool pool.name) (busy_scan (env.scalesets_by_pool pool.name) (demand conf (env.tasks_by_pool pool.name))).2).error = none := by
          rw [hr] at herr
          exact herr
        obtain ⟨hsum, hearly, hnil, hne2, hposn, hcre⟩ :=
          scale_up_fill_spec env.scaleset_max_size conf (env.scalesets_by_pool pool.name) (busy_scan (env.scalesets_by_pool pool.name) (demand conf (env.tasks_by_pool pool.name))).2
        by_cases hfe : (scale_up_fill env.scaleset_max_size conf (env.scalesets_by_pool pool.name) (busy_scan (env.scalesets_by_pool pool.name) (demand conf (env.tasks_by_pool pool.name))).2).events = []
        · obtain ⟨hupd, hnnod, hearly2⟩ := hnil hfe
          by_cases hc0 : min (env.scaleset_max_size conf.image) conf.scaleset_size = 0
          · rw [scale_up_div0_eq env.scaleset_max_size pool (env.scalesets_by_pool pool.name) (busy_scan (env.scalesets_by_pool pool.name) (demand conf (env.tasks_by_pool pool.name))).2 conf
              hconf hearly2 hc0] at herr2
            simp at herr2
          · have hmain := scale_up_main_eq env.scaleset_max_size pool (env.scalesets_by_pool pool.name)
              (busy_scan (env.scalesets_by_pool pool.name) (demand conf (env.tasks_by_pool pool.name))).2 conf hconf hearly2 hc0
            by_cases hk0 : (pyCeilDiv (scale_up_fill env.scaleset_max_size conf (env.scalesets_by_pool pool.name) (busy_scan (env.scalesets_by_pool pool.name) (demand conf (env.tasks_by_pool pool.name))).2).nodes_needed (min (env.scaleset_max_size conf.image) conf.scaleset_size)).toNat = 0
            · -- iteration count 0: the first tick did nothing at all
              have hevs1 : (tick_pool env pool).events = [] := by
                rw [hr]
                show (scale_up env.scaleset_max_size pool (env.scalesets_by_pool pool.name) (busy_scan (env.scalesets_by_pool pool.name) (demand conf (env.tasks_by_pool pool.name))).2).events = []
                rw [hmain]
                show (scale_up_fill env.scaleset_max_size conf (env.scalesets_by_pool pool.name) (busy_scan (env.scalesets_by_pool pool.name) (demand conf (env.tasks_by_pool pool.name))).2).events ++ (scale_up_create env.scaleset_max_size conf pool.name (pyCeilDiv (scale_up_fill env.scaleset_max_size conf (env.scalesets_by_pool pool.name) (busy_scan (env.scalesets_by_pool pool.name) (demand conf (env.tasks_by_pool pool.name))).2).nodes_needed (min (env.scaleset_max_size conf.image) conf.scaleset_size)).toNat (scale_up_fill env.scaleset_max_size conf (env.scalesets_by_pool pool.name) (busy_scan (env.scalesets_by_pool pool.name) (demand conf (env.tasks_by_pool pool.name))).2).nodes_needed 0).2.1 = []
                rw [hk0, hfe]
                rfl
              have hS : (tick_pool env pool).scalesets = (env.scalesets_by_pool pool.name) := by
                rw [hr]
                show (scale_up env.scaleset_max_size pool (env.scalesets_by_pool pool.name) (busy_scan (env.scalesets_by_pool pool.name) (demand conf (env.tasks_by_pool pool.name))).2).updated ++ (scale_up env.scaleset_max_size pool (env.scalesets_by_pool pool.name) (busy_scan (env.scalesets_by_pool pool.name) (demand conf (env.tasks_by_pool pool.name))).2).created = (env.scalesets_by_pool pool.name)
                have hcr : (scale_up env.scaleset_max_size pool (env.scalesets_by_pool pool.name) (busy_scan (env.scalesets_by_pool pool.name) (demand conf (env.tasks_by_pool pool.name))).2).created = [] := by
                  rw [hmain]
                  show (scale_up_create env.scaleset_max_size conf pool.name (pyCeilDiv (scale_up_fill env.scaleset_max_size conf (env.scalesets_by_pool pool.name) (busy_scan (env.scalesets_by_pool pool.name) (demand conf (env.tasks_by_pool pool.name))).2).nodes_needed (min (env.scaleset_max_size conf.image) conf.scaleset_size)).toNat (scale_up_fill env.scaleset_max_size conf (env.scalesets_by_pool pool.name) (busy_scan (env.scalesets_by_pool pool.name) (demand conf (env.tasks_by_pool pool.name))).2).nodes_needed 0).1 = []
                  rw [hk0]
                  rfl
                rw [scale_up_updated_eq env.scaleset_max_size pool (env.scalesets_by_pool pool.name)
                  (busy_scan (env.scalesets_by_pool pool.name) (demand conf (env.tasks_by_pool pool.name))).2 conf hconf, hupd, hcr, List.append_nil]
              rw [tick_pool_congr env (envAfter env pool (tick_pool env pool)) pool (congrFun henvT pool.name)
                (by rw [henvS, hS]) henvF henvM]
              exact hevs1
            · obtain ⟨j, hkj⟩ : ∃ j, (pyCeilDiv (scale_up_fill env.scaleset_max_size conf (env.scalesets_by_pool pool.name) (busy_scan (env.scalesets_by_pool pool.name) (demand conf (env.tasks_by_pool pool.name))).2).nodes_needed (min (env.scaleset_max_size conf.image) conf.scaleset_size)).toNat = j + 1 :=
                ⟨(pyCeilDiv (scale_up_fill env.scaleset_max_size conf (env.scalesets_by_pool pool.name) (busy_scan (env.scalesets_by_pool pool.name) (demand conf (env.tasks_by_pool pool.name))).2).nodes_needed (min (env.scaleset_max_size conf.image) conf.scaleset_size)).toNat - 1, by omega⟩
              by_cases hreg : strOptTruthy conf.region = true
              · -- creations only: the created sizes absorb the whole delta
                have hnn2 : 0 < (scale_up_fill env.scaleset_max_size conf (env.scalesets_by_pool pool.name) (busy_scan (env.scalesets_by_pool pool.name) (demand conf (env.tasks_by_pool pool.name))).2).nodes_needed := by
                  rw [hnnod]
                  exact hpos
                have hcpos : 0 < min (env.scaleset_max_size conf.image) conf.scaleset_size := by
                  rcases lt_trichotomy (0 : Int) (min (env.scaleset_max_size conf.image) conf.scaleset_size) with h | h | h
                  · exact h
                  · exact absurd h.symm hc0
                  · exfalso
                    have hcle := pyCeilDiv_nonpos hnn2 h
                    omega
                have hcast : (((pyCeilDiv (scale_up_fill env.scaleset_max_size conf (env.scalesets_by_pool pool.name) (busy_scan (env.scalesets_by_pool pool.name) (demand conf (env.tasks_by_pool pool.name))).2).nodes_needed (min (env.scaleset_max_size conf.image) conf.scaleset_size)).toNat : Nat) : Int) =
                    pyCeilDiv (scale_up_fill env.scaleset_max_size conf (env.scalesets_by_pool pool.name) (busy_scan (env.scalesets_by_pool pool.name) (demand conf (env.tasks_by_pool pool.name))).2).nodes_needed (min (env.scaleset_max_size conf.image) conf.scaleset_size) :=
                  Int.toNat_of_nonneg (le_of_lt (pyCeilDiv_pos hnn2 hcpos))
                obtain ⟨hb1, hb2⟩ :=
                  pyCeilDiv_bounds (n := (scale_up_fill env.scaleset_max_size conf (env.scalesets_by_pool pool.name) (busy_scan (env.scalesets_by_pool pool.name) (demand conf (env.tasks_by_pool pool.name))).2).nodes_needed) hcpos
                have hsumc := scale_up_create_sum env.scaleset_max_size conf
                  pool.name hreg (pyCeilDiv (scale_up_fill env.scaleset_max_size conf (env.scalesets_by_pool pool.name) (busy_scan (env.scalesets_by_pool pool.name) (demand conf (env.tasks_by_pool pool.name))).2).nodes_needed (min (env.scaleset_max_size conf.image) conf.scaleset_size)).toNat (scale_up_fill env.scaleset_max_size conf (env.scalesets_by_pool pool.name) (busy_scan (env.scalesets_by_pool pool.name) (demand conf (env.tasks_by_pool pool.name))).2).nodes_needed 0 hcpos hnn2
                  (by rw [hcast]; exact hb2) (by rw [hcast]; exact hb1)
                have hS : (tick_pool env pool).scalesets = (env.scalesets_by_pool pool.name) ++ (scale_up_create env.scaleset_max_size conf pool.name (pyCeilDiv (scale_up_fill env.scaleset_max_size conf (env.scalesets_by_pool pool.name) (busy_scan (env.scalesets_by_pool pool.name) (demand conf (env.tasks_by_pool pool.name))).2).nodes_needed (min (env.scaleset_max_size conf.image) conf.scaleset_size)).toNat (scale_up_fill env.scaleset_max_size conf (env.scalesets_by_pool pool.name) (busy_scan (env.scalesets_by_pool pool.name) (demand conf (env.tasks_by_pool pool.name))).2).nodes_needed 0).1 := by
                  rw [hr]
                  show (scale_up env.scaleset_max_size pool (env.scalesets_by_pool pool.name) (busy_scan (env.scalesets_by_pool pool.name) (demand conf (env.tasks_by_pool pool.name))).2).updated ++ (scale_up env.scaleset_max_size pool (env.scalesets_by_pool pool.name) (busy_scan (env.scalesets_by_pool pool.name) (demand conf (env.tasks_by_pool pool.name))).2).created = (env.scalesets_by_pool pool.name) ++ (scale_up_create env.scaleset_max_size conf pool.name (pyCeilDiv (scale_up_fill env.scaleset_max_size conf (env.scalesets_by_pool pool.name) (busy_scan (env.scalesets_by_pool pool.name) (demand conf (env.tasks_by_pool pool.name))).2).nodes_needed (min (env.scaleset_max_size conf.image) conf.scaleset_size)).toNat (scale_up_fill env.scaleset_max_size conf (env.scalesets_by_pool pool.name) (busy_scan (env.scalesets_by_pool pool.name) (demand conf (env.tasks_by_pool pool.name))).2).nodes_needed 0).1
                  rw [scale_up_updated_eq env.scaleset_max_size pool (env.scalesets_by_pool pool.name)
                    (busy_scan (env.scalesets_by_pool pool.name) (demand conf (env.tasks_by_pool pool.name))).2 conf hconf, hupd]
                  congr 1
                  rw [hmain]
                have hall2 : ∀ s ∈ (env.scalesets_by_pool pool.name) ++ (scale_up_create env.scaleset_max_size conf pool.name (pyCeilDiv (scale_up_fill env.scaleset_max_size conf (env.scalesets_by_pool pool.name) (busy_scan (env.scalesets_by_pool pool.name) (demand conf (env.tasks_by_pool pool.name))).2).nodes_needed (min (env.scaleset_max_size conf.image) conf.scaleset_size)).toNat (scale_up_fill env.scaleset_max_size conf (env.scalesets_by_pool pool.name) (busy_scan (env.scalesets_by_pool pool.name) (demand conf (env.tasks_by_pool pool.name))).2).nodes_needed 0).1,
                    s.state ∉ ScalesetState.modifying := by
                  intro s hs
                  rcases List.mem_append.mp hs with hs | hs
                  · exact hall s hs
                  · intro hmem
                    have hinit := (scale_up_create_mem env.scaleset_max_size
                      conf pool.name _ _ _ s hs).1
                    rw [hinit] at hmem
                    exact absurd hmem (by decide)
                have hscan1 := busy_scan_not_busy (env.scalesets_by_pool pool.name) (demand conf (env.tasks_by_pool pool.name)) hall
                have hv1 : (busy_scan (env.scalesets_by_pool pool.name) (demand conf (env.tasks_by_pool pool.name))).2 = (demand conf (env.tasks_by_pool pool.name)) - sumSizes (env.scalesets_by_pool pool.name) := by
                  rw [hscan1]
                have hscan2 := busy_scan_not_busy ((env.scalesets_by_pool pool.name) ++ (scale_up_create env.scaleset_max_size conf pool.name (pyCeilDiv (scale_up_fill env.scaleset_max_size conf (env.scalesets_by_pool pool.name) (busy_scan (env.scalesets_by_pool pool.name) (demand conf (env.tasks_by_pool pool.name))).2).nodes_needed (min (env.scaleset_max_size conf.image) conf.scaleset_size)).toNat (scale_up_fill env.scaleset_max_size conf (env.scalesets_by_pool pool.name) (busy_scan (env.scalesets_by_pool pool.name) (demand conf (env.tasks_by_pool pool.name))).2).nodes_needed 0).1) (demand conf (env.tasks_by_pool pool.name)) hall2
                have hb2s : (busy_scan ((envAfter env pool (tick_pool env pool)).scalesets_by_pool pool.name)
                    (demand conf ((envAfter env pool (tick_pool env pool)).tasks_by_pool pool.name))).1 = false := by
                  rw [henvT, henvS, hS, hscan2]
                have hz2 : (busy_scan ((envAfter env pool (tick_pool env pool)).scalesets_by_pool pool.name)
                    (demand conf ((envAfter env pool (tick_pool env pool)).tasks_by_pool pool.name))).2 = 0 := by
                  rw [henvT, henvS, hS, hscan2]
                  show (demand conf (env.tasks_by_pool pool.name)) - sumSizes ((env.scalesets_by_pool pool.name) ++ (scale_up_create env.scaleset_max_size conf pool.name (pyCeilDiv (scale_up_fill env.scaleset_max_size conf (env.scalesets_by_pool pool.name) (busy_scan (env.scalesets_by_pool pool.name) (demand conf (env.tasks_by_pool pool.name))).2).nodes_needed (min (env.scaleset_max_size conf.image) conf.scaleset_size)).toNat (scale_up_fill env.scaleset_max_size conf (env.scalesets_by_pool pool.name) (busy_scan (env.scalesets_by_pool pool.name) (demand conf (env.tasks_by_pool pool.name))).2).nodes_needed 0).1) = 0
                  rw [sumSizes_append]
                  omega
                rw [tick_pool_zero_eq (envAfter env pool (tick_pool env pool)) pool conf hconf hb2s hz2]
              · -- region falsy would have raised on the first tick
                have hreg2 : strOptTruthy conf.region = false := by simpa using hreg
                have hserr : (scale_up env.scaleset_max_size pool (env.scalesets_by_pool pool.name) (busy_scan (env.scalesets_by_pool pool.name) (demand conf (env.tasks_by_pool pool.name))).2).error = some ScaleUpError.missingRegion := by
                  rw [hmain]
                  show (scale_up_create env.scaleset_max_size conf pool.name (pyCeilDiv (scale_up_fill env.scaleset_max_size conf (env.scalesets_by_pool pool.name) (busy_scan (env.scalesets_by_pool pool.name) (demand conf (env.tasks_by_pool pool.name))).2).nodes_needed (min (env.scaleset_max_size conf.image) conf.scaleset_size)).toNat (scale_up_fill env.scaleset_max_size conf (env.scalesets_by_pool pool.name) (busy_scan (env.scalesets_by_pool pool.name) (demand conf (env.tasks_by_pool pool.name))).2).nodes_needed 0).2.2 = some ScaleUpError.missingRegion
                  rw [hkj, scale_up_create_missing env.scaleset_max_size conf
                    pool.name hreg2 j _ 0]
                rw [hserr] at herr2
                simp at herr2
        · -- the fill loop mutated a scaleset: it is now in `resize`
          rcases hne2 hfe with ⟨u, hu, hust⟩
          have hmem : u ∈ (tick_pool env pool).scalesets := by
            rw [hr]
            show u ∈ (scale_up env.scaleset_max_size pool (env.scalesets_by_pool pool.name) (busy_scan (env.scalesets_by_pool pool.name) (demand conf (env.tasks_by_pool pool.name))).2).updated ++ (scale_up env.scaleset_max_size pool (env.scalesets_by_pool pool.name) (busy_scan (env.scalesets_by_pool pool.name) (demand conf (env.tasks_by_pool pool.name))).2).created
            apply List.mem_append_left
            rw [scale_up_updated_eq env.scaleset_max_size pool (env.scalesets_by_pool pool.name) (busy_scan (env.scalesets_by_pool pool.name) (demand conf (env.tasks_by_pool pool.name))).2
              conf hconf]
            exact hu
          have hbusy2 : ∃ s ∈ (envAfter env pool (tick_pool env pool)).scalesets_by_pool pool.name,
              s.state ∈ ScalesetState.modifying := by
            rw [henvS]
            exact ⟨u, hmem, by rw [hust]; simp [ScalesetState.modifying]⟩
          exact (tick_pool_suppressed (envAfter env pool (tick_pool env pool)) pool hbusy2).1
      · -- the delta was already zero: nothing changed
        have hr := tick_pool_zero_eq env pool conf hconf hb' hzero.symm
        have hS : (tick_pool env pool).scalesets = (env.scalesets_by_pool pool.name) := by
          rw [hr]
        rw [tick_pool_congr env (envAfter env pool (tick_pool env pool)) pool (congrFun henvT pool.name)
          (by rw [henvS, hS]) henvF henvM]
        rw [hr]
      · -- scale-down ran on the first tick
        have hr := tick_pool_down_eq env pool conf hconf hb' hneg
        by_cases hde : (scale_down env.node_search_free (env.scalesets_by_pool pool.name) |(busy_scan (env.scalesets_by_pool pool.name) (demand conf (env.tasks_by_pool pool.name))).2|).2 = []
        · have hupd := scale_down_events_nil env.node_search_free (env.scalesets_by_pool pool.name) _ hde
          have hS : (tick_pool env pool).scalesets = (env.scalesets_by_pool pool.name) := by
            rw [hr]
            exact hupd
          have hevs1 : (tick_pool env pool).events = [] := by
            rw [hr]
            exact hde
          rw [tick_pool_congr env (envAfter env pool (tick_pool env pool)) pool (congrFun henvT pool.name)
            (by rw [henvS, hS]) henvF henvM]
          exact hevs1
        · rcases scale_down_events_ne env.node_search_free (env.scalesets_by_pool pool.name) _ hde with
            ⟨u, hu, hmod⟩
          have hmem : u ∈ (tick_pool env pool).scalesets := by
            rw [hr]
            exact hu
          have hbusy2 : ∃ s ∈ (envAfter env pool (tick_pool env pool)).scalesets_by_pool pool.name,
              s.state ∈ ScalesetState.modifying := by
            rw [henvS]
            exact ⟨u, hmem, hmod⟩
          exact (tick_pool_suppressed (envAfter env pool (tick_pool env pool)) pool hbusy2).1

/-! ### Counterexamples and witnesses -/

/-- Counterexample to claim C2 as frozen: with a negative configured
scaleset size the ceil division is negative, the creation loop runs
zero times, and `scale_up` returns without raising having allocated
nothing of the requested node. -/
theorem scale_up_conservation_cex :
    (scale_up wSmax cexPoolNegTarget [] 1).error = none ∧
    (sumSizes (scale_up wSmax cexPoolNegTarget [] 1).updated -
        sumSizes ([] : List Scaleset)) +
      sumSizes (scale_up wSmax cexPoolNegTarget [] 1).created ≠ 1 := by
  decide

/-- Counterexample to claim C7 as frozen: demand remains after the fill
loop and the region is missing, yet `scale_up` completes without
raising, because the negative creation cap makes the loop run zero
times and the region check is never reached. -/
theorem scale_up_missing_region_cex :
    cexConfNegTarget.region = none ∧
    (scale_up_fill wSmax cexConfNegTarget [] 1).early = false ∧
    0 < (scale_up_fill wSmax cexConfNegTarget [] 1).nodes_needed ∧
    (scale_up wSmax cexPoolNegTarget [] 1).error = none := by
  decide

/-- Counterexample to claim C6 as frozen: `max_size = 0` is set but
falsy, so the demand is not clamped to it. -/
theorem demand_max_size_zero_cex :
    cexConfMaxZero.max_size = some 0 ∧
    demand cexConfMaxZero [] = 2 ∧
    ¬(demand cexConfMaxZero [] ≤ 0) := by
  decide

/-- Counterexample to claim C9 as frozen: with a mid-transition
scaleset of size 5 ahead of a running one of size 3 and demand 10, the
scan leaves `nodes_needed = 10`, not `10 - (5 + 3) = 2`: sizes at and
after the first mid-transition scaleset are never subtracted. -/
theorem delta_modifying_cex :
    (tick_pool cexEnvModifying cexPoolHighMin).nodes_needed = some 10 ∧
    demand cexConfHighMin (cexEnvModifying.tasks_by_pool cexPoolHighMin.name) -
      sumSizes (cexEnvModifying.scalesets_by_pool cexPoolHighMin.name) = 2 ∧
    (10 : Int) ≠ 2 := by
  decide

/-- Counterexample to claim C8 as frozen: a deficit of 2 with no free
nodes: the first tick issues no mutation and changes nothing, and the
second run recomputes `nodes_needed = -2`, not `0`. -/
theorem tick_idempotence_cex :
    (tick_pool cexEnvDeficit cexPoolDeficit).events = [] ∧
    (tick_pool cexEnvDeficit cexPoolDeficit).error = none ∧
    (tick_pool (envAfter cexEnvDeficit cexPoolDeficit
        (tick_pool cexEnvDeficit cexPoolDeficit)) cexPoolDeficit).nodes_needed =
      some (-2) ∧
    ((-2 : Int) = 0 → False) := by
  decide

theorem busy_pool_suppression_witness :
    (tick_pool wEnvBusy wPool).events = [] ∧
    (tick_pool wEnvBusy wPool).error = none ∧
    (tick_pool wEnvBusy wPool).scalesets =
      wEnvBusy.scalesets_by_pool wPool.name :=
  busy_pool_suppression wEnvBusy wPool
    ⟨wScaleset 1 ScalesetState.resize 5, by decide, by decide⟩

theorem scale_up_conservation_witness :
    (sumSizes (scale_up wSmax wPool [] 3).updated -
        sumSizes ([] : List Scaleset)) +
      sumSizes (scale_up wSmax wPool [] 3).created = 3 :=
  scale_up_conservation wSmax wPool [] 3 wConf rfl (by decide) (by decide)
    (by decide)

theorem scale_up_cap_respect_witness :
    List.Forall₂
      (fun o u => u = o ∨
        (o.size < min (wSmax o.image) wConf.scaleset_size ∧
         u.size ≤ min (wSmax o.image) wConf.scaleset_size))
      [wScaleset 1 ScalesetState.running 3]
      (scale_up wSmax wPool [wScaleset 1 ScalesetState.running 3] 4).updated ∧
    ∀ c ∈ (scale_up wSmax wPool [wScaleset 1 ScalesetState.running 3] 4).created,
      c.size ≤ min (wSmax wConf.image) wConf.scaleset_size :=
  scale_up_cap_respect wSmax wPool [wScaleset 1 ScalesetState.running 3] 4
    wConf rfl

theorem scale_down_full_retirement_witness :
    (scale_down_step wFreeTwo (wScaleset 7 ScalesetState.running 2) 5).1 =
      { wScaleset 7 ScalesetState.running 2 with
          state := ScalesetState.shutdown } ∧
    (scale_down_step wFreeTwo (wScaleset 7 ScalesetState.running 2) 5).2.1 =
      Event.saveScaleset
          { wScaleset 7 ScalesetState.running 2 with
              state := ScalesetState.shutdown } ::
        (wFreeTwo (wScaleset 7 ScalesetState.running 2).scaleset_id).map
          (fun nd => Event.shutdownNode nd.machine_id) ∧
    (scale_down_step wFreeTwo (wScaleset 7 ScalesetState.running 2) 5).2.2 =
      5 - (wScaleset 7 ScalesetState.running 2).size :=
  (scale_down_full_retirement wFreeTwo
    (wScaleset 7 ScalesetState.running 2) 5).1.mp (by decide)

theorem demand_estimation_witness :
    get_vm_count [wTaskOk, wTaskNoPool] =
      (([wTaskOk, wTaskNoPool]).map taskDemand).sum ∧
    demand wConfCapped [wTaskOk, wTaskNoPool] =
      min (max ((([wTaskOk, wTaskNoPool]).map taskDemand).sum)
        wConfCapped.min_size) 3 :=
  ⟨(demand_estimation wConfCapped [wTaskOk, wTaskNoPool]).1,
   (demand_estimation wConfCapped [wTaskOk, wTaskNoPool]).2.2.1 3 rfl
     (by decide)⟩

theorem scale_up_missing_region_aborts_witness :
    (scale_up wSmax wPoolNoRegion [] 1).error.isSome = true ∧
    (scale_up wSmax wPoolNoRegion [] 1).created = [] ∧
    createCount (scale_up wSmax wPoolNoRegion [] 1).events = 0 ∧
    (scale_up wSmax wPoolNoRegion [] 1).updated =
      (scale_up_fill wSmax wConfNoRegion [] 1).updated :=
  scale_up_missing_region_aborts wSmax wPoolNoRegion [] 1 wConfNoRegion rfl
    (by decide) (by decide) (by decide) (by decide)

theorem tick_pool_second_run_witness :
    (tick_pool (envAfter wEnvCalm wPool (tick_pool wEnvCalm wPool))
      wPool).events = [] :=
  tick_pool_second_run_no_mutations wEnvCalm wPool (by decide)

theorem delta_computation_witness :
    (tick_pool wEnvCalm wPool).nodes_needed =
      some (demand wConf (wEnvCalm.tasks_by_pool wPool.name) -
        sumSizes ((wEnvCalm.scalesets_by_pool wPool.name).takeWhile
          (fun s => !decide (s.state ∈ ScalesetState.modifying)))) ∧
    ((∀ s ∈ wEnvCalm.scalesets_by_pool wPool.name,
        s.state ∉ ScalesetState.modifying) →
      (tick_pool wEnvCalm wPool).nodes_needed =
        some (demand wConf (wEnvCalm.tasks_by_pool wPool.name) -
          sumSizes (wEnvCalm.scalesets_by_pool wPool.name))) :=
  delta_computation wEnvCalm wPool wConf rfl

theorem scale_up_zero_cap_witness :
    (scale_up wSmax wPoolZeroCap [] 2).error = some ScaleUpError.divByZero ∧
    (scale_up wSmax wPoolZeroCap [] 2).created = [] ∧
    createCount (scale_up wSmax wPoolZeroCap [] 2).events = 0 :=
  (scale_up_zero_cap wSmax wPoolZeroCap [] 2 wConfZeroCap rfl (by decide)
    (by decide)).1 (by decide)

end OneFuzz
